import Mathlib

/-!
Verification of the natural-language specification of `flask-docspec`
against a shallow embedding of its source code.

The embedding covers:

* `flask_docspec/models.py`: the `add_nullable` schema annotator and its
  inner `add_nullable_subroutine`, operating on a JSON-like value type
  mirroring pydantic-generated schema dictionaries, driven by a `Field`
  tree mirroring the relevant attributes of pydantic `ModelField` objects
  (`allow_none`, `sub_fields`, `args_field`, `ret_field`, the model-class
  title used on `$ref` rewrites).
* `flask_docspec/docstring.py`: the `GoogleDocstring` section parser
  (`_parse`, `_is_section_header`, `_is_section_break`, the consume
  functions, and the per-section reducers that store attributes on the
  parsed object).  Python exceptions raised by the reducers are modelled
  with `Except`.
* `flask_docspec/parser.py`: `template_subroutine` / `get_opId`,
  `get_func_for_redirect` (with the symbol-registry / `exec` environment
  abstracted as an oracle structure and `sys.modules` as explicit state),
  `get_requests`, `get_tags`, `check_function_redirect`,
  `get_params_in_path`, `schema_to_query_params`, `get_specs_for_path`
  and `make_paths` (with the `exec`-based helpers such as
  `get_request_body` and `generate_responses` abstracted as oracles).

Python dictionaries are modelled as ordered association lists with the
insertion-order update semantics of `dict` (assignment to an existing key
updates in place, a new key is appended).
-/

namespace FlaskDocspec

/-! ## Python-style string primitives -/

/-- Python `str.lower` (ASCII case folding suffices for the inputs at hand). -/
def pyLower (s : String) : String := ⟨s.data.map Char.toLower⟩

/-- Python `str.rstrip()` with no argument: drop trailing whitespace. -/
def pyRstrip (s : String) : String := ⟨(s.data.reverse.dropWhile Char.isWhitespace).reverse⟩

/-- Python `str.lstrip()` with no argument: drop leading whitespace. -/
def pyLstrip (s : String) : String := ⟨s.data.dropWhile Char.isWhitespace⟩

/-- Python `str.strip()` with no argument. -/
def pyStrip (s : String) : String := pyLstrip (pyRstrip s)

/-- Character-list prefix test (kernel-reducible `startswith` core). -/
def strLeq : List Char → List Char → Bool
  | [], _ => true
  | _ :: _, [] => false
  | a :: as, b :: bs => a = b && strLeq as bs

/-- Python `s.startswith(pre)`. -/
def pyStartswith (s pre : String) : Bool := strLeq pre.data s.data

/-- Python slicing `s[n:]` (by characters). -/
def pyDrop (s : String) (n : Nat) : String := ⟨s.data.drop n⟩

/-- Left-to-right scan of Python `str.replace`: at each position, if the
pattern matches, emit the replacement and skip past the match. -/
def pyReplaceAux (pat rep : List Char) : Nat → List Char → List Char
  | 0, cs => cs
  | fuel + 1, cs =>
    match cs with
    | [] => []
    | c :: rest =>
      if strLeq pat cs then rep ++ pyReplaceAux pat rep fuel (cs.drop pat.length)
      else c :: pyReplaceAux pat rep fuel rest

/-- Python `s.replace(pat, rep)` for a nonempty `pat`. -/
def pyReplace (s pat rep : String) : String :=
  ⟨pyReplaceAux pat.data rep.data s.data.length s.data⟩

/-- Python `str.strip(c)` for a single stripping character `c`. -/
def stripChar (c : Char) (s : String) : String :=
  ⟨((s.data.dropWhile (· = c)).reverse.dropWhile (· = c)).reverse⟩

/-- Python `str.strip(" ")` as used on section header lines. -/
def stripSpaces (s : String) : String := stripChar ' ' s

/-- Python `str.strip(":")` as used on section header lines. -/
def stripColons (s : String) : String := stripChar ':' s

/-- The `_get_indent` helper of `GoogleDocstring`: index of the first
non-whitespace character, or the length for all-whitespace lines. -/
def getIndent (s : String) : Nat := (s.data.takeWhile Char.isWhitespace).length

/-- The `_is_indented` helper of `GoogleDocstring`: true when the first
`indent` characters exist and are all whitespace. -/
def isIndented (line : String) (indent : Nat) : Bool :=
  (line.data.take indent).all Char.isWhitespace && decide (indent < line.data.length)

/-- Helper for `splitOnce`: scan for the first occurrence of `sep`. -/
def splitOnceAux (sep : Char) : List Char → List Char → Option (String × String)
  | _, [] => none
  | acc, c :: cs =>
    if c = sep then some (⟨acc.reverse⟩, ⟨cs⟩) else splitOnceAux sep (c :: acc) cs

/-- Python `s.split(sep, 1)`: split on the first occurrence only.
Returns `none` for the second component when `sep` does not occur. -/
def splitOnce (sep : Char) (s : String) : String × Option String :=
  match splitOnceAux sep [] s.data with
  | some (a, b) => (a, some b)
  | none => (s, none)

/-! ## JSON-like values

Python dictionaries that hold generated schemas have string keys almost
everywhere; the positional `args` encoding of callables uses integer keys
(`{0: ..., 1: ...}`), so keys carry both cases.  Objects and arrays are
mutually inductive spines so that all functions below can be defined by
plain structural recursion. -/

inductive JKey where
  | s : String → JKey
  | n : Nat → JKey
deriving DecidableEq, Repr

mutual

inductive Json where
  | null : Json
  | bool : Bool → Json
  | num : Int → Json
  | str : String → Json
  | arr : JsonList → Json
  | obj : JsonKVs → Json

inductive JsonList where
  | nil : JsonList
  | cons : Json → JsonList → JsonList

inductive JsonKVs where
  | nil : JsonKVs
  | cons : JKey → Json → JsonKVs → JsonKVs

end

/-- Lookup a key in an object spine (Python `d[k]` / `k in d`). -/
def JsonKVs.lookup : JsonKVs → JKey → Option Json
  | .nil, _ => none
  | .cons k v rest, key => if k = key then some v else rest.lookup key

/-- Python `d[k] = v`: update in place when the key exists (keeping its
position), append otherwise. -/
def JsonKVs.set : JsonKVs → JKey → Json → JsonKVs
  | .nil, key, v => .cons key v .nil
  | .cons k w rest, key, v =>
    if k = key then .cons k v rest else .cons k w (rest.set key v)

/-- Python `d.pop(k)`: remove the key (no-op when absent, where Python
would raise `KeyError`; all modelled call sites have the key present). -/
def JsonKVs.erase : JsonKVs → JKey → JsonKVs
  | .nil, _ => .nil
  | .cons k w rest, key =>
    if k = key then rest else .cons k w (rest.erase key)

def JsonKVs.hasKey (kvs : JsonKVs) (key : JKey) : Bool :=
  (kvs.lookup key).isSome

def JsonList.getIdx : JsonList → Nat → Option Json
  | .nil, _ => none
  | .cons v _, 0 => some v
  | .cons _ rest, i + 1 => rest.getIdx i

def JsonList.setIdx : JsonList → Nat → Json → JsonList
  | .nil, _, _ => .nil
  | .cons _ rest, 0, v => .cons v rest
  | .cons w rest, i + 1, v => .cons w (rest.setIdx i v)

/-- Python `value[k]` on a dict-valued node. -/
def Json.get? : Json → JKey → Option Json
  | .obj kvs, key => kvs.lookup key
  | _, _ => none

/-- Python `value[k] = v` on a dict-valued node (other nodes unchanged;
Python would raise there and no modelled call site does). -/
def Json.setKey : Json → JKey → Json → Json
  | .obj kvs, key, v => .obj (kvs.set key v)
  | j, _, _ => j

/-- Python `value.pop(k)` on a dict-valued node. -/
def Json.popKey : Json → JKey → Json
  | .obj kvs, key => .obj (kvs.erase key)
  | j, _ => j

def Json.hasKey : Json → JKey → Bool
  | .obj kvs, key => kvs.hasKey key
  | _, _ => false

/-- Python `container[i]` for an integer `i`: list indexing on arrays,
integer-key lookup on dicts (the positional `args` properties). -/
def Json.getChildIdx : Json → Nat → Option Json
  | .arr xs, i => xs.getIdx i
  | .obj kvs, i => kvs.lookup (.n i)
  | _, _ => none

/-- Python `container[i] = v` for an integer `i`. -/
def Json.setChildIdx : Json → Nat → Json → Json
  | .arr xs, i, v => .arr (xs.setIdx i v)
  | .obj kvs, i, v => .obj (kvs.set (.n i) v)
  | j, _, _ => j

/-- Convenience constructor from a list of key/value pairs. -/
def jobj (l : List (JKey × Json)) : Json :=
  .obj (l.foldr (fun kv acc => JsonKVs.cons kv.1 kv.2 acc) .nil)

/-- Convenience constructor from a list of values. -/
def jarr (l : List Json) : Json :=
  .arr (l.foldr JsonList.cons .nil)

/-! ## `flask_docspec/models.py`: the `add_nullable` annotator

`Field` mirrors the attributes of (the forked) pydantic's `ModelField`
that `add_nullable_subroutine` reads:

* `allow_none : Bool` — whether the declared type admits `None`;
* `type_title : Option String` — `some t` when `field.type_` is a
  pydantic `BaseModel` subclass whose configured title (or class name)
  is `t`, `none` otherwise (drives the `value['title']` write on the
  `$ref` rewrite);
* `sub_fields` — Python `None` (`SubFields.none`), or the list of member
  fields of a union / the single value field of a `Dict` / the element
  field of a `List`.  The fork represents a `Callable[[], ...]`
  args-field's empty argument list as an empty tuple; that is the
  `SubFields.some FieldList.nil` case;
* `args_field`, `ret_field` — present exactly on callable-typed fields. -/

mutual

inductive Field where
  | mk : Bool → Option String → SubFields → OptField → OptField → Field

inductive SubFields where
  | none : SubFields
  | some : FieldList → SubFields

inductive FieldList where
  | nil : FieldList
  | cons : Field → FieldList → FieldList

inductive OptField where
  | none : OptField
  | some : Field → OptField

end

def Field.allowNone : Field → Bool
  | .mk a _ _ _ _ => a

def Field.subFields : Field → SubFields
  | .mk _ _ sf _ _ => sf

/-- Whether a node's wire value has `type: object` together with the
given structural key (the two `elif` guards of the subroutine). -/
def isObjTypeWith (value : Json) (key : String) : Bool :=
  (match value.get? (.s "type") with
   | some (.str t) => t = "object"
   | _ => false) && value.hasKey (.s key)

/-- Line 21–22 of `models.py`: drop a literal `type: "null"` marker. -/
def ansDropNullType (value : Json) : Json :=
  match value.get? (.s "type") with
  | some (.str t) => if t = "null" then value.popKey (.s "type") else value
  | _ => value

/-- Lines 25–26 of `models.py`: `value['title'] = field.type_.__config__.title
or field.type_.__name__` when the field's type is a `BaseModel` subclass. -/
def ansTitleUpdate (typeTitle : Option String) (value : Json) : Json :=
  match typeTitle with
  | some t => value.setKey (.s "title") (.str t)
  | none => value

/-- Line 27 of `models.py`: `value['anyOf'] = [{'$ref': value.pop('$ref')}]`
(run only when a `$ref` is present). -/
def ansRefRewrite (typeTitle : Option String) (value : Json) : Json :=
  match value.get? (.s "$ref") with
  | some refv =>
    ((ansTitleUpdate typeTitle value).popKey (.s "$ref")).setKey (.s "anyOf")
      (.arr (.cons (.obj (.cons (.s "$ref") refv .nil)) .nil))
  | none => value

/-- Lines 23–28 of `models.py`: when the field allows `None`, rewrite a
bare `$ref` into a single-element `anyOf` (recording the model title)
and set `nullable: true` on the node. -/
def ansAllowNone (allowNone : Bool) (typeTitle : Option String) (value : Json) : Json :=
  if allowNone then
    (ansRefRewrite typeTitle value).setKey (.s "nullable") (.bool true)
  else value

mutual

/-- The inner `add_nullable_subroutine(field, value, process_all)` of
`flask_docspec/models.py`, as a pure function returning the mutated
`value`.  The statement blocks of the Python body run in order: the
`type: null` drop, the `allow_none` block, the `sub_fields` dispatch,
the `args_field` block and the `ret_field` block. -/
def add_nullable_subroutine : Field → Json → Bool → Json
  | .mk allowNone typeTitle subFields argsF retF, value0, processAll =>
    ansRetStep retF
      (ansArgsStep argsF
        (ansSubStep subFields
          (ansAllowNone allowNone typeTitle (ansDropNullType value0)) processAll))

/-- Lines 29–54 of `models.py`: the `if field.sub_fields:` dispatch on the
structural shape of the wire node. -/
def ansSubStep : SubFields → Json → Bool → Json
  | .some (.cons f0 fs), value, processAll =>
    if isObjTypeWith value "additionalProperties" then
      if processAll then
        walkChildren (.cons f0 fs) 0 (.s "additionalProperties") value processAll
      else
        match value.get? (.s "additionalProperties") with
        | some child =>
          value.setKey (.s "additionalProperties")
            (add_nullable_subroutine f0 child processAll)
        | none => value
    else if isObjTypeWith value "properties" then
      if processAll then
        walkChildren (.cons f0 fs) 0 (.s "properties") value processAll
      else
        match value.get? (.s "properties") with
        | some child =>
          value.setKey (.s "properties")
            (add_nullable_subroutine f0 child processAll)
        | none => value
    else if value.hasKey (.s "anyOf") then
      walkChildren (.cons f0 fs) 0 (.s "anyOf") value processAll
    else if value.hasKey (.s "items") then
      match value.get? (.s "items") with
      | some child =>
        value.setKey (.s "items") (add_nullable_subroutine f0 child processAll)
      | none => value
    else value
  | _, value, _ => value

/-- Lines 55–63 of `models.py`: the `args_field` handling — an empty
argument tuple drops `args`, a Python-`None` `sub_fields` (ellipsis or
`[Any]`) turns `args` into a bare object, and otherwise `args` is walked
recursively with `process_all=True`. -/
def ansArgsStep : OptField → Json → Json
  | .some af, value =>
    match af.subFields with
    | .some .nil =>
      match value.get? (.s "properties") with
      | some props => value.setKey (.s "properties") (props.popKey (.s "args"))
      | none => value
    | .none =>
      match value.get? (.s "properties") with
      | some props =>
        value.setKey (.s "properties")
          (props.setKey (.s "args") (.obj (.cons (.s "type") (.str "object") .nil)))
      | none => value
    | .some (.cons _ _) =>
      match value.get? (.s "properties") with
      | some props =>
        match props.get? (.s "args") with
        | some argsv =>
          value.setKey (.s "properties")
            (props.setKey (.s "args") (add_nullable_subroutine af argsv true))
        | none => value
      | none => value
  | .none, value => value

/-- Lines 64–65 of `models.py`: walk the return descriptor into the
`retval` property. -/
def ansRetStep : OptField → Json → Json
  | .some rfld, value =>
    match value.get? (.s "properties") with
    | some props =>
      match props.get? (.s "retval") with
      | some retv =>
        value.setKey (.s "properties")
          (props.setKey (.s "retval") (add_nullable_subroutine rfld retv true))
      | none => value
    | none => value
  | .none, value => value

/-- The positional loops `for i, s in enumerate(field.sub_fields):
add_nullable_subroutine(s, value[key][i], process_all)`. -/
def walkChildren : FieldList → Nat → JKey → Json → Bool → Json
  | .nil, _, _, value, _ => value
  | .cons f fs, i, key, value, processAll =>
    let value1 :=
      match value.get? key with
      | some container =>
        match container.getChildIdx i with
        | some child =>
          value.setKey key
            (container.setChildIdx i (add_nullable_subroutine f child processAll))
        | none => value
      | none => value
    walkChildren fs (i + 1) key value1 processAll

end

/-- The outer loop of `add_nullable(schema, model)`: for each property of
the schema, look up the model field whose alias is the property name
(`[x for x in model.__fields__.values() if x.alias == prop][0]`, whose
`IndexError` on a missing alias is the `none` result) and run the
subroutine with `process_all` exactly when the property carries
`x-type: function`. -/
def add_nullable_walk : JsonKVs → List (String × Field) → Option JsonKVs
  | .nil, _ => some .nil
  | .cons k v rest, fields =>
    match k with
    | .s prop =>
      match fields.find? (fun pf => pf.1 == prop) with
      | Option.none => none
      | Option.some (_, f) =>
        let pa :=
          match v.get? (.s "x-type") with
          | some (.str t) => t = "function"
          | _ => false
        match add_nullable_walk rest fields with
        | some rest' => some (.cons k (add_nullable_subroutine f v pa) rest')
        | none => none
    | .n _ => none

/-- The `add_nullable(schema, model)` entry point of
`flask_docspec/models.py` (run by `BaseModel.Config.schema_extra`). -/
def add_nullable (schema : Json) (modelFields : List (String × Field)) : Option Json :=
  match schema.get? (.s "properties") with
  | some (.obj props) =>
    match add_nullable_walk props modelFields with
    | some props' => some (schema.setKey (.s "properties") (.obj props'))
    | none => none
  | some _ => none
  | none => some schema

/-! ### The `nullable` key is only ever written as `true`

`noNullFalse` states that no object anywhere in a value maps the key
`"nullable"` to `false`.  The annotator preserves it: absence (never a
literal `false`) is the encoding of "not nullable". -/

/-- A key/value pair of the shape `nullable: false`. -/
def badPair : JKey → Json → Bool
  | .s s, .bool b => decide (s = "nullable") && decide (b = false)
  | _, _ => false

mutual

def Json.noNullFalse : Json → Bool
  | .obj kvs => kvs.noNullFalse
  | .arr xs => xs.noNullFalse
  | _ => true

def JsonList.noNullFalse : JsonList → Bool
  | .nil => true
  | .cons v rest => v.noNullFalse && rest.noNullFalse

def JsonKVs.noNullFalse : JsonKVs → Bool
  | .nil => true
  | .cons k v rest => !badPair k v && v.noNullFalse && rest.noNullFalse

end

theorem lookup_noNullFalse :
    ∀ (kvs : JsonKVs) (key : JKey) (v : Json),
      kvs.noNullFalse = true → kvs.lookup key = some v → v.noNullFalse = true
  | .nil, key, v => by intro _ h; simp [JsonKVs.lookup] at h
  | .cons k w rest, key, v => by
    intro h hl
    simp only [JsonKVs.noNullFalse, Bool.and_eq_true] at h
    simp only [JsonKVs.lookup] at hl
    by_cases hk : k = key
    · simp [hk] at hl; exact hl ▸ h.1.2
    · simp [hk] at hl; exact lookup_noNullFalse rest key v h.2 hl

theorem set_noNullFalse :
    ∀ (kvs : JsonKVs) (key : JKey) (v : Json),
      kvs.noNullFalse = true → v.noNullFalse = true → badPair key v = false →
      (kvs.set key v).noNullFalse = true
  | .nil, key, v => by
    intro _ hv hb
    simp [JsonKVs.set, JsonKVs.noNullFalse, hb, hv]
  | .cons k w rest, key, v => by
    intro h hv hb
    simp only [JsonKVs.noNullFalse, Bool.and_eq_true] at h
    simp only [JsonKVs.set]
    by_cases hk : k = key
    · simp [hk, JsonKVs.noNullFalse, hb, hv, h.2]
    · simp [hk, JsonKVs.noNullFalse, h.1.1, h.1.2,
            set_noNullFalse rest key v h.2 hv hb]

theorem erase_noNullFalse :
    ∀ (kvs : JsonKVs) (key : JKey),
      kvs.noNullFalse = true → (kvs.erase key).noNullFalse = true
  | .nil, key => by intro h; simpa [JsonKVs.erase] using h
  | .cons k w rest, key => by
    intro h
    simp only [JsonKVs.noNullFalse, Bool.and_eq_true] at h
    simp only [JsonKVs.erase]
    by_cases hk : k = key
    · simp [hk, h.2]
    · simp [hk, JsonKVs.noNullFalse, h.1.1, h.1.2, erase_noNullFalse rest key h.2]

theorem getIdx_noNullFalse :
    ∀ (xs : JsonList) (i : Nat) (v : Json),
      xs.noNullFalse = true → xs.getIdx i = some v → v.noNullFalse = true
  | .nil, i, v => by intro _ h; simp [JsonList.getIdx] at h
  | .cons w rest, 0, v => by
    intro h hg
    simp only [JsonList.noNullFalse, Bool.and_eq_true] at h
    simp only [JsonList.getIdx, Option.some.injEq] at hg
    exact hg ▸ h.1
  | .cons w rest, i + 1, v => by
    intro h hg
    simp only [JsonList.noNullFalse, Bool.and_eq_true] at h
    exact getIdx_noNullFalse rest i v h.2 hg

theorem setIdx_noNullFalse :
    ∀ (xs : JsonList) (i : Nat) (v : Json),
      xs.noNullFalse = true → v.noNullFalse = true →
      (xs.setIdx i v).noNullFalse = true
  | .nil, i, v => by intro _ _; simp [JsonList.setIdx, JsonList.noNullFalse]
  | .cons w rest, 0, v => by
    intro h hv
    simp only [JsonList.noNullFalse, Bool.and_eq_true] at h
    simp [JsonList.setIdx, JsonList.noNullFalse, hv, h.2]
  | .cons w rest, i + 1, v => by
    intro h hv
    simp only [JsonList.noNullFalse, Bool.and_eq_true] at h
    simp [JsonList.setIdx, JsonList.noNullFalse, h.1,
          setIdx_noNullFalse rest i v h.2 hv]

theorem lookup_not_badPair :
    ∀ (kvs : JsonKVs) (key : JKey) (v : Json),
      kvs.noNullFalse = true → kvs.lookup key = some v → badPair key v = false
  | .nil, key, v => by intro _ h; simp [JsonKVs.lookup] at h
  | .cons k w rest, key, v => by
    intro h hl
    simp only [JsonKVs.noNullFalse, Bool.and_eq_true] at h
    simp only [JsonKVs.lookup] at hl
    by_cases hk : k = key
    · simp [hk] at hl
      subst hk
      have := h.1.1
      simp only [Bool.not_eq_true'] at this
      exact hl ▸ this
    · simp [hk] at hl; exact lookup_not_badPair rest key v h.2 hl

theorem get_not_badPair (j : Json) (key : JKey) (v : Json)
    (h : j.noNullFalse = true) (hg : j.get? key = some v) : badPair key v = false := by
  match j with
  | .obj kvs => exact lookup_not_badPair kvs key v h hg
  | .null | .bool _ | .num _ | .str _ | .arr _ => simp [Json.get?] at hg

theorem get_noNullFalse (j : Json) (key : JKey) (v : Json)
    (h : j.noNullFalse = true) (hg : j.get? key = some v) : v.noNullFalse = true := by
  match j with
  | .obj kvs => exact lookup_noNullFalse kvs key v h hg
  | .null | .bool _ | .num _ | .str _ | .arr _ => simp [Json.get?] at hg

theorem setKey_noNullFalse (j : Json) (key : JKey) (v : Json)
    (h : j.noNullFalse = true) (hv : v.noNullFalse = true) (hb : badPair key v = false) :
    (j.setKey key v).noNullFalse = true := by
  match j with
  | .obj kvs => exact set_noNullFalse kvs key v h hv hb
  | .null | .bool _ | .num _ | .str _ | .arr _ => exact h

theorem popKey_noNullFalse (j : Json) (key : JKey)
    (h : j.noNullFalse = true) : (j.popKey key).noNullFalse = true := by
  match j with
  | .obj kvs => exact erase_noNullFalse kvs key h
  | .null | .bool _ | .num _ | .str _ | .arr _ => exact h

theorem getChildIdx_noNullFalse (j : Json) (i : Nat) (v : Json)
    (h : j.noNullFalse = true) (hg : j.getChildIdx i = some v) : v.noNullFalse = true := by
  match j with
  | .arr xs => exact getIdx_noNullFalse xs i v h hg
  | .obj kvs => exact lookup_noNullFalse kvs (.n i) v h hg
  | .null | .bool _ | .num _ | .str _ => simp [Json.getChildIdx] at hg

theorem setChildIdx_noNullFalse (j : Json) (i : Nat) (v : Json)
    (h : j.noNullFalse = true) (hv : v.noNullFalse = true) :
    (j.setChildIdx i v).noNullFalse = true := by
  match j with
  | .arr xs => exact setIdx_noNullFalse xs i v h hv
  | .obj kvs => exact set_noNullFalse kvs (.n i) v h hv rfl
  | .null | .bool _ | .num _ | .str _ => exact h

theorem ansDropNullType_noNullFalse (v : Json) (h : v.noNullFalse = true) :
    (ansDropNullType v).noNullFalse = true := by
  unfold ansDropNullType
  split
  · split
    · exact popKey_noNullFalse _ _ h
    · exact h
  · exact h

theorem badPair_bool_true (key : JKey) : badPair key (.bool true) = false := by
  cases key with
  | s s => simp [badPair]
  | n n => simp [badPair]

theorem badPair_not_nullable (s : String) (v : Json) (h : s ≠ "nullable") :
    badPair (.s s) v = false := by
  cases v <;> simp [badPair, h]

theorem ansTitleUpdate_noNullFalse (tt : Option String) (v : Json)
    (h : v.noNullFalse = true) : (ansTitleUpdate tt v).noNullFalse = true := by
  unfold ansTitleUpdate
  split
  · exact setKey_noNullFalse v _ _ h rfl (badPair_not_nullable _ _ (by decide))
  · exact h

theorem ansRefRewrite_noNullFalse (tt : Option String) (v : Json)
    (h : v.noNullFalse = true) : (ansRefRewrite tt v).noNullFalse = true := by
  unfold ansRefRewrite
  split
  case h_1 refv hg =>
    have hr : refv.noNullFalse = true := get_noNullFalse v _ refv h hg
    apply setKey_noNullFalse _ _ _
      (popKey_noNullFalse _ _ (ansTitleUpdate_noNullFalse tt v h)) _
      (badPair_not_nullable _ _ (by decide))
    simp [Json.noNullFalse, JsonList.noNullFalse, JsonKVs.noNullFalse,
          badPair_not_nullable _ _ (show "$ref" ≠ "nullable" by decide), hr]
  case h_2 => exact h

theorem ansAllowNone_noNullFalse (a : Bool) (tt : Option String) (v : Json)
    (h : v.noNullFalse = true) : (ansAllowNone a tt v).noNullFalse = true := by
  unfold ansAllowNone
  split
  · exact setKey_noNullFalse _ _ _ (ansRefRewrite_noNullFalse tt v h) rfl
      (badPair_bool_true _)
  · exact h

mutual

theorem add_nullable_subroutine_noNullFalse :
    ∀ (f : Field) (v : Json) (pa : Bool),
      v.noNullFalse = true → (add_nullable_subroutine f v pa).noNullFalse = true
  | .mk an tt sf af rf, v, pa => by
    intro h
    simp only [add_nullable_subroutine]
    exact ansRetStep_noNullFalse rf _
      (ansArgsStep_noNullFalse af _
        (ansSubStep_noNullFalse sf _ pa
          (ansAllowNone_noNullFalse an tt _ (ansDropNullType_noNullFalse _ h))))

theorem ansSubStep_noNullFalse :
    ∀ (sf : SubFields) (v : Json) (pa : Bool),
      v.noNullFalse = true → (ansSubStep sf v pa).noNullFalse = true
  | .none, v, pa => by intro h; simpa [ansSubStep] using h
  | .some .nil, v, pa => by intro h; simpa [ansSubStep] using h
  | .some (.cons f0 fs), v, pa => by
    intro h
    simp only [ansSubStep]
    split
    · split
      · exact walkChildren_noNullFalse (.cons f0 fs) 0 _ v pa h
      · split
        case isTrue.isFalse.h_1 child hg =>
          exact setKey_noNullFalse _ _ _ h
            (add_nullable_subroutine_noNullFalse f0 child pa (get_noNullFalse v _ child h hg))
            (badPair_not_nullable _ _ (by decide))
        case isTrue.isFalse.h_2 => exact h
    · split
      · split
        · exact walkChildren_noNullFalse (.cons f0 fs) 0 _ v pa h
        · split
          case isFalse.isTrue.isFalse.h_1 child hg =>
            exact setKey_noNullFalse _ _ _ h
              (add_nullable_subroutine_noNullFalse f0 child pa (get_noNullFalse v _ child h hg))
              (badPair_not_nullable _ _ (by decide))
          case isFalse.isTrue.isFalse.h_2 => exact h
      · split
        · exact walkChildren_noNullFalse (.cons f0 fs) 0 _ v pa h
        · split
          · split
            case isTrue.h_1 child hg =>
              exact setKey_noNullFalse _ _ _ h
                (add_nullable_subroutine_noNullFalse f0 child pa (get_noNullFalse v _ child h hg))
                (badPair_not_nullable _ _ (by decide))
            case isTrue.h_2 => exact h
          · exact h

theorem ansArgsStep_noNullFalse :
    ∀ (af : OptField) (v : Json),
      v.noNullFalse = true → (ansArgsStep af v).noNullFalse = true
  | .none, v => by intro h; simpa [ansArgsStep] using h
  | .some af, v => by
    intro h
    simp only [ansArgsStep]
    split
    · -- empty argument tuple: pop `args`
      split
      case h_1.h_1 props hg =>
        exact setKey_noNullFalse _ _ _ h
          (popKey_noNullFalse _ _ (get_noNullFalse v _ props h hg))
          (badPair_not_nullable _ _ (by decide))
      case h_1.h_2 => exact h
    · -- ellipsis args: `args` becomes a bare object
      split
      case h_2.h_1 props hg =>
        apply setKey_noNullFalse _ _ _ h _ (badPair_not_nullable _ _ (by decide))
        apply setKey_noNullFalse _ _ _ (get_noNullFalse v _ props h hg) (by decide)
          (badPair_not_nullable _ _ (by decide))
      case h_2.h_2 => exact h
    · -- non-empty argument list: recursive walk with process_all
      split
      case h_3.h_1 props hg =>
        split
        case h_1 argsv hga =>
          have hp : props.noNullFalse = true := get_noNullFalse v _ props h hg
          apply setKey_noNullFalse _ _ _ h _ (badPair_not_nullable _ _ (by decide))
          apply setKey_noNullFalse _ _ _ hp _ (badPair_not_nullable _ _ (by decide))
          exact add_nullable_subroutine_noNullFalse af argsv true
            (get_noNullFalse _ _ _ hp hga)
        case h_2 => exact h
      case h_3.h_2 => exact h

theorem ansRetStep_noNullFalse :
    ∀ (rf : OptField) (v : Json),
      v.noNullFalse = true → (ansRetStep rf v).noNullFalse = true
  | .none, v => by intro h; simpa [ansRetStep] using h
  | .some rfld, v => by
    intro h
    simp only [ansRetStep]
    split
    case h_1 props hg =>
      split
      case h_1 retv hgr =>
        have hp : props.noNullFalse = true := get_noNullFalse v _ props h hg
        apply setKey_noNullFalse _ _ _ h _ (badPair_not_nullable _ _ (by decide))
        apply setKey_noNullFalse _ _ _ hp _ (badPair_not_nullable _ _ (by decide))
        exact add_nullable_subroutine_noNullFalse rfld retv true
          (get_noNullFalse _ _ _ hp hgr)
      case h_2 => exact h
    case h_2 => exact h

theorem walkChildren_noNullFalse :
    ∀ (fs : FieldList) (i : Nat) (key : JKey) (v : Json) (pa : Bool),
      v.noNullFalse = true → (walkChildren fs i key v pa).noNullFalse = true
  | .nil, i, key, v, pa => by intro h; simpa [walkChildren] using h
  | .cons f fs, i, key, v, pa => by
    intro h
    simp only [walkChildren]
    apply walkChildren_noNullFalse fs (i + 1) key _ pa
    split
    case h_1 container hg =>
      split
      case h_1 child hgc =>
        have hc : container.noNullFalse = true := get_noNullFalse v _ container h hg
        have hnb : badPair key container = false := get_not_badPair v key container h hg
        apply setKey_noNullFalse _ _ _ h
        · exact setChildIdx_noNullFalse _ _ _ hc
            (add_nullable_subroutine_noNullFalse f child pa
              (getChildIdx_noNullFalse _ _ _ hc hgc))
        · -- `setChildIdx` keeps the container's constructor, hence the
          -- updated value can only be `nullable: false` if the original was
          match container with
          | .arr xs => cases key <;> simp [Json.setChildIdx, badPair]
          | .obj kvs => cases key <;> simp [Json.setChildIdx, badPair]
          | .null | .bool _ | .num _ | .str _ => exact hnb
      case h_2 => exact h
    case h_2 => exact h

end

/-! ### Concrete scenarios for the union-nullability and callable claims

The base schemas below are the pydantic-generated wire dictionaries
*before* `schema_extra` runs `add_nullable` (pydantic drops optionality
when generating them — that is the reason `add_nullable` exists), and the
`Field` values mirror the `ModelField` trees pydantic builds for the
corresponding annotations.  Union members exclude `NoneType`; a union
containing `None` instead sets `allow_none` on the outer field.  A
`Dict[k, v]` field has the single value field as its `sub_fields`. -/

/-- A plain `int` (or `str`) member field: no `None`, no sub-fields. -/
def scalarField : Field := .mk false none .none .none .none

/-- The field for an `Optional[int]` dict-value type. -/
def optIntField : Field := .mk true none .none .none .none

/-- The field for `Union[int, Optional[str]]`: `allow_none` is true and the
sub-fields are the two non-`None` members. -/
def fieldUnionIntOptStr : Field :=
  .mk true none (.some (.cons scalarField (.cons scalarField .nil))) .none .none

/-- The pydantic base schema of a model with one property `u` of type
`Union[int, Optional[str]]`. -/
def schemaUnionIntOptStr : Json :=
  jobj [(.s "title", .str "M"), (.s "type", .str "object"),
        (.s "properties", jobj [(.s "u",
          jobj [(.s "title", .str "U"),
                (.s "anyOf", jarr [jobj [(.s "type", .str "integer")],
                                   jobj [(.s "type", .str "string")]])])])]

/-- The annotated output: `nullable: true` lands at the union's own level. -/
def expectedUnionIntOptStr : Json :=
  jobj [(.s "title", .str "M"), (.s "type", .str "object"),
        (.s "properties", jobj [(.s "u",
          jobj [(.s "title", .str "U"),
                (.s "anyOf", jarr [jobj [(.s "type", .str "integer")],
                                   jobj [(.s "type", .str "string")]]),
                (.s "nullable", .bool true)])])]

/-- The field for `Dict[str, Optional[int]]`: not itself optional, one
value sub-field that allows `None`. -/
def fieldDictOptInt : Field :=
  .mk false none (.some (.cons optIntField .nil)) .none .none

/-- The field for `Union[int, Dict[str, Optional[int]]]`. -/
def fieldUnionIntDict : Field :=
  .mk false none (.some (.cons scalarField (.cons fieldDictOptInt .nil))) .none .none

/-- The pydantic base schema of a model with one property `u` of type
`Union[int, Dict[str, Optional[int]]]`. -/
def schemaUnionIntDict : Json :=
  jobj [(.s "title", .str "M"), (.s "type", .str "object"),
        (.s "properties", jobj [(.s "u",
          jobj [(.s "title", .str "U"),
                (.s "anyOf", jarr [jobj [(.s "type", .str "integer")],
                                   jobj [(.s "type", .str "object"),
                                         (.s "additionalProperties",
                                          jobj [(.s "type", .str "integer")])]])])])]

/-- The annotated output: `anyOf` stays at the top with no top-level
`nullable`; the dict alternative's `additionalProperties` carries it. -/
def expectedUnionIntDict : Json :=
  jobj [(.s "title", .str "M"), (.s "type", .str "object"),
        (.s "properties", jobj [(.s "u",
          jobj [(.s "title", .str "U"),
                (.s "anyOf", jarr [jobj [(.s "type", .str "integer")],
                                   jobj [(.s "type", .str "object"),
                                         (.s "additionalProperties",
                                          jobj [(.s "type", .str "integer"),
                                                (.s "nullable", .bool true)])]])])])]

/-- The annotated union node of the second scenario (the value of
property `u`), for stating key-absence directly. -/
def expectedUnionIntDictU : Json :=
  jobj [(.s "title", .str "U"),
        (.s "anyOf", jarr [jobj [(.s "type", .str "integer")],
                           jobj [(.s "type", .str "object"),
                                 (.s "additionalProperties",
                                  jobj [(.s "type", .str "integer"),
                                        (.s "nullable", .bool true)])]])]

/-- C1.  For pydantic model fields annotated through `models.BaseModel`
(whose `schema_extra` runs `add_nullable`): `Union[int, Optional[str]]`
gets `anyOf` plus `nullable: true` at the union's own level;
`Union[int, Dict[str, Optional[int]]]` keeps `anyOf` at the top with no
top-level `nullable` while the dict alternative's `additionalProperties`
carries `nullable: true`; and the annotator can only ever write
`nullable` as `true` — a node that does not allow `None` keeps the key
absent, never `false`. -/
theorem C1_union_nullability :
    add_nullable schemaUnionIntOptStr [("u", fieldUnionIntOptStr)]
      = some expectedUnionIntOptStr ∧
    add_nullable schemaUnionIntDict [("u", fieldUnionIntDict)]
      = some expectedUnionIntDict ∧
    (expectedUnionIntDict.get? (.s "properties")).bind (fun p => p.get? (.s "u"))
      = some expectedUnionIntDictU ∧
    expectedUnionIntDictU.hasKey (.s "nullable") = false ∧
    (∀ (f : Field) (v : Json) (pa : Bool),
      v.noNullFalse = true → (add_nullable_subroutine f v pa).noNullFalse = true) :=
  ⟨rfl, rfl, rfl, rfl, add_nullable_subroutine_noNullFalse⟩

/-- Witness for the universal conjunct of `C1_union_nullability`,
instantiated at the first concrete scenario. -/
theorem C1_union_nullability_witness :
    schemaUnionIntOptStr.noNullFalse = true ∧
    (add_nullable_subroutine fieldUnionIntOptStr schemaUnionIntOptStr false).noNullFalse
      = true :=
  ⟨rfl, C1_union_nullability.2.2.2.2 fieldUnionIntOptStr schemaUnionIntOptStr false rfl⟩

/-! ### Callable fields (forked pydantic encodes callables with
`x-type: function` and `args`/`retval` properties, and hangs `args_field`
and `ret_field` descriptors off the `ModelField`). -/

/-- The return descriptor of a `Callable[..., None]`: allows `None`. -/
def retNoneField : Field := .mk true none .none .none .none

/-- The args descriptor of `Callable[[], None]`: an empty argument tuple. -/
def argsEmptyField : Field := .mk false none (.some .nil) .none .none

/-- The args descriptor of a variadic `Callable[..., None]`: the fork
leaves `sub_fields` as Python `None`. -/
def argsAnyField : Field := .mk false none .none .none .none

/-- The args descriptor of `Callable[[int, int], None]`. -/
def argsIntIntField : Field :=
  .mk false none (.some (.cons scalarField (.cons scalarField .nil))) .none .none

def fieldCallableEmpty : Field := .mk false none .none (.some argsEmptyField) (.some retNoneField)

def fieldCallableAny : Field := .mk false none .none (.some argsAnyField) (.some retNoneField)

def fieldCallableIntInt : Field :=
  .mk false none .none (.some argsIntIntField) (.some retNoneField)

/-- Base wire node of a callable-typed property before annotation. -/
def callableNode (argsVal : Json) : Json :=
  jobj [(.s "title", .str "Func"), (.s "type", .str "object"),
        (.s "x-type", .str "function"),
        (.s "properties", jobj [(.s "args", argsVal), (.s "retval", jobj [])])]

/-- Model schema with a single callable property `func`. -/
def callableSchema (argsVal : Json) : Json :=
  jobj [(.s "title", .str "M"), (.s "type", .str "object"),
        (.s "properties", jobj [(.s "func", callableNode argsVal)])]

/-- The positional `args` node pydantic generates for `Callable[[int, int], ...]`. -/
def argsIntIntNode : Json :=
  jobj [(.s "type", .str "object"),
        (.s "properties", jobj [(.n 0, jobj [(.s "type", .str "integer")]),
                                (.n 1, jobj [(.s "type", .str "integer")])])]

/-- C2.  Callable-typed fields processed by `add_nullable`:
`Callable[[], None]` loses its `args` property entirely;
`Callable[..., None]` gets `args: {type: object}` with no further
structure; `Callable[[int, int], None]` keeps `args.properties` keyed
`{0, 1}` each `{type: integer}`; and in each case the return descriptor
is walked into `retval` (here `None`-returning, so `retval` gains
`nullable: true`). -/
theorem C2_callable_encoding :
    add_nullable (callableSchema (jobj [(.s "type", .str "object")]))
        [("func", fieldCallableEmpty)]
      = some (jobj [(.s "title", .str "M"), (.s "type", .str "object"),
          (.s "properties", jobj [(.s "func",
            jobj [(.s "title", .str "Func"), (.s "type", .str "object"),
                  (.s "x-type", .str "function"),
                  (.s "properties", jobj [(.s "retval",
                    jobj [(.s "nullable", .bool true)])])])])]) ∧
    add_nullable (callableSchema (jobj [])) [("func", fieldCallableAny)]
      = some (jobj [(.s "title", .str "M"), (.s "type", .str "object"),
          (.s "properties", jobj [(.s "func",
            jobj [(.s "title", .str "Func"), (.s "type", .str "object"),
                  (.s "x-type", .str "function"),
                  (.s "properties", jobj [(.s "args",
                      jobj [(.s "type", .str "object")]),
                    (.s "retval", jobj [(.s "nullable", .bool true)])])])])]) ∧
    add_nullable (callableSchema argsIntIntNode) [("func", fieldCallableIntInt)]
      = some (jobj [(.s "title", .str "M"), (.s "type", .str "object"),
          (.s "properties", jobj [(.s "func",
            jobj [(.s "title", .str "Func"), (.s "type", .str "object"),
                  (.s "x-type", .str "function"),
                  (.s "properties", jobj [(.s "args", argsIntIntNode),
                    (.s "retval", jobj [(.s "nullable", .bool true)])])])])]) :=
  ⟨rfl, rfl, rfl⟩

/-! ## `flask_docspec/docstring.py`: the `GoogleDocstring` section parser

The line iterator (`modify_iter` with an `rstrip` modifier) is modelled
by pre-applying `pyRstrip` to every line: the raw lines are never
observed, every `peek`/`next` goes through the modifier, and `rstrip` is
idempotent.  All functions below therefore operate on modified lines.
The `_is_in_section` / `_section_indent` instance state is the explicit
`ctx : Option Nat` argument.  Exceptions raised by section reducers are
`Except.error` values. -/

/-- The keys of the `_sections` dispatch dictionary. -/
def sectionKeys : List String :=
  ["args", "arguments", "attributes", "example", "examples",
   "keyword args", "keyword arguments", "methods", "other parameters",
   "parameters", "schema", "schemas", "map", "maps", "tag", "tags",
   "request", "requests", "response", "responses", "return", "returns"]

/-- A word character of the regex class `\w` (ASCII). -/
def isWordChar (c : Char) : Bool := c.isAlphanum || c = '_'

/-- The `_google_section_regex` pattern: `^(\s|\w)+:\s*$` — a nonempty run
of word/whitespace characters, a colon, then optional whitespace. -/
def matchesSectionRegex (s : String) : Bool :=
  match s.data.reverse.dropWhile Char.isWhitespace with
  | ':' :: w => !w.isEmpty && w.all (fun c => c.isWhitespace || isWordChar c)
  | _ => false

/-- The `_get_current_indent` scan: indentation of the first non-blank
line among the given ones, defaulting to 0. -/
def getCurrentIndent : List String → Nat
  | [] => 0
  | l :: rest => if l ≠ "" then getIndent l else getCurrentIndent rest

/-- The `_is_section_header` check of `docstring.py` on the remaining
lines.  Note that the header's own indentation is computed on the
`.lower().strip(" ")`-processed line — it is 0 whenever the line is
indented with spaces — so the lookahead line need only be indented
deeper than that stripped indentation. -/
def isSectionHeader : List String → Bool
  | [] => false
  | l :: rest =>
    let sect := stripSpaces (pyLower l)
    if matchesSectionRegex sect && sectionKeys.contains (stripColons sect) then
      decide (getCurrentIndent rest > getIndent sect)
    else false

/-- The `_is_section_break` check: end of input, a section header, or a
non-blank line that drops back below the section's establishing indent. -/
def isSectionBreak (ctx : Option Nat) (lines : List String) : Bool :=
  match lines with
  | [] => true
  | l :: _ =>
    isSectionHeader lines ||
    (match ctx with
     | some ind => l ≠ "" && !isIndented l ind
     | none => false)

/-- The `_consume_empty` loop: take leading blank lines. -/
def consumeEmpty : List String → List String × List String
  | [] => ([], [])
  | l :: rest =>
    if l = "" then
      let (a, b) := consumeEmpty rest
      (l :: a, b)
    else ([], l :: rest)

/-- The `_consume_contiguous` loop: take non-blank, non-header lines. -/
def consumeContiguous : List String → List String × List String
  | [] => ([], [])
  | l :: rest =>
    if l ≠ "" && !isSectionHeader (l :: rest) then
      let (a, b) := consumeContiguous rest
      (l :: a, b)
    else ([], l :: rest)

/-- The body loop of `_consume_to_next_section`. -/
def consumeToNextSectionCore (ctx : Option Nat) : List String → List String × List String
  | [] => ([], [])
  | l :: rest =>
    if isSectionBreak ctx (l :: rest) then ([], l :: rest)
    else
      let (a, b) := consumeToNextSectionCore ctx rest
      (l :: a, b)

/-- The `_consume_to_next_section` method: leading blank lines are
consumed but dropped, the body runs to the next section break, and
trailing blank lines are consumed and kept. -/
def consumeToNextSection (ctx : Option Nat) (lines : List String) :
    List String × List String :=
  let (_, lines1) := consumeEmpty lines
  let (body, lines2) := consumeToNextSectionCore ctx lines1
  let (trail, lines3) := consumeEmpty lines2
  (body ++ trail, lines3)

/-- The `_consume_indented_block` loop. -/
def consumeIndentedBlock (ctx : Option Nat) (indent : Nat) :
    List String → List String × List String
  | [] => ([], [])
  | l :: rest =>
    if !isSectionBreak ctx (l :: rest) && (l = "" || isIndented l indent) then
      let (a, b) := consumeIndentedBlock ctx indent rest
      (l :: a, b)
    else ([], l :: rest)

/-- The `_get_min_indent` helper (`None` and `0` both collapse to 0 via
the `min_indent or 0` idiom). -/
def getMinIndent (lines : List String) : Nat :=
  match (lines.filter (· ≠ "")).map getIndent with
  | [] => 0
  | x :: xs => xs.foldl Nat.min x

/-- The `_dedent` helper with `full=False`. -/
def dedent (lines : List String) : List String :=
  let m := getMinIndent lines
  lines.map (fun l => ⟨l.data.drop m⟩)

/-- The `_strip_empty` helper: drop leading and trailing blank lines. -/
def stripEmptyLines (lines : List String) : List String :=
  if lines.all (· = "") then []
  else ((lines.dropWhile (· = "")).reverse.dropWhile (· = "")).reverse

/-- The `_consume_section_header` result value: the stripped header word
when it is a known section, the raw line otherwise. -/
def consumeSectionHeaderVal (line : String) : String :=
  let stripped := stripColons (stripSpaces line)
  if sectionKeys.contains (pyLower stripped) then stripped else line

/-! ### The `_xref_regex` and `_single_colon_regex` machinery -/

/-- Separator characters of the xref role class `[\-_+:.]`. -/
def isSepChar (c : Char) : Bool :=
  c = '-' || c = '_' || c = '+' || c = ':' || c = '.'

def noAdjacentSeps : List Char → Bool
  | [] => true
  | [_] => true
  | a :: b :: rest => !(isSepChar a && isSepChar b) && noAdjacentSeps (b :: rest)

/-- Whether a character run matches `(?:[a-zA-Z0-9]+[\-_+:.])*[a-zA-Z0-9]+`:
alternating alphanumeric blocks and single separators, starting and
ending alphanumeric. -/
def isRoleBody (cs : List Char) : Bool :=
  !cs.isEmpty &&
  cs.all (fun c => c.isAlphanum || isSepChar c) &&
  (match cs.head? with | some c => c.isAlphanum | none => false) &&
  (match cs.getLast? with | some c => c.isAlphanum | none => false) &&
  noAdjacentSeps cs

/-- The lazy `.+?` before the closing backtick: the smallest index `k ≥ 1`
with a backtick (at least one content character). -/
def firstBacktickFrom1 : List Char → Option Nat
  | [] => none
  | _ :: rest =>
    match rest.findIdx? (· = '`') with
    | some i => some (i + 1)
    | none => none

/-- Length of an `_xref_regex` match starting at `cs`, or `none`.  The
backtracking engine keeps the largest role split that still completes
with an opening backtick and a lazily-closed backtick. -/
def xrefMatchLen (cs : List Char) : Option Nat :=
  match cs with
  | ':' :: rest =>
    let ok := fun j =>
      isRoleBody (rest.take j) && rest.get? j == some ':' &&
      rest.get? (j + 1) == some '`' &&
      (firstBacktickFrom1 (rest.drop (j + 2))).isSome
    match ((List.range (rest.length + 1)).filter ok).getLast? with
    | some j =>
      match firstBacktickFrom1 (rest.drop (j + 2)) with
      | some k => some (j + k + 4)
      | none => none
    | none => none
  | _ => none

/-- The alternating chunk list produced by `_xref_regex.split(line)`:
`true`-tagged chunks are matches (the odd positions of the Python list). -/
def xrefSplitAux : Nat → List Char → List Char → List (String × Bool) → List (String × Bool)
  | 0, acc, restChars, res =>
    (((⟨(restChars.reverse ++ acc).reverse⟩ : String), false) :: res).reverse
  | _ + 1, acc, [], res => (((⟨acc.reverse⟩ : String), false) :: res).reverse
  | fuel + 1, acc, c :: cs, res =>
    if c = ':' then
      match xrefMatchLen (c :: cs) with
      | some len =>
        xrefSplitAux fuel [] ((c :: cs).drop len)
          (((⟨((c :: cs).take len)⟩ : String), true) ::
            ((⟨acc.reverse⟩ : String), false) :: res)
      | none => xrefSplitAux fuel (c :: acc) cs res
    else xrefSplitAux fuel (c :: acc) cs res

def xrefSplit (line : String) : List (String × Bool) :=
  xrefSplitAux (line.data.length + 1) [] line.data []

/-- The `_single_colon_regex` search `(?<!:):(?!:)`: index of the first
colon not adjacent to another colon. -/
def singleColonAux : Option Char → Nat → List Char → Option Nat
  | _, _, [] => none
  | prev, i, c :: rest =>
    if c = ':' && prev ≠ some ':' && rest.head? ≠ some ':' then some i
    else singleColonAux (some c) (i + 1) rest

/-- The `_partition_field_on_colon` method: walk the xref-split chunks,
cut at the first single colon found in a non-match chunk, and strip the
accumulated halves. -/
def pfocGo : List (String × Bool) → Bool → String → String → String →
    String × String × String
  | [], _, before, colon, after => (pyStrip before, colon, pyStrip after)
  | (chunk, isMatch) :: rest, found, before, colon, after =>
    if found then pfocGo rest found before colon (after ++ chunk)
    else if !isMatch then
      match singleColonAux none 0 chunk.data with
      | some i =>
        pfocGo rest true (before ++ ⟨chunk.data.take i⟩) ":"
          (after ++ ⟨chunk.data.drop (i + 1)⟩)
      | none => pfocGo rest found (before ++ chunk) colon after
    else pfocGo rest found (before ++ chunk) colon after

def partitionFieldOnColon (line : String) : String × String × String :=
  pfocGo (xrefSplit line) false "" "" ""

/-- Index of the last occurrence of `c`. -/
def lastIdxOf (c : Char) (cs : List Char) : Option Nat :=
  match cs.reverse.findIdx? (· = c) with
  | some i => some (cs.length - 1 - i)
  | none => none

/-- The `_google_typed_arg_regex` match
`\s*(.+?)\s*\(\s*(.*[^\s]+)\s*\)`: name up to the first parenthesis, type
between the first `(` and the last `)`, both stripped, the type nonempty. -/
def googleTypedArg (s : String) : Option (String × String) :=
  match s.data.findIdx? (· = '(') with
  | none => none
  | some k =>
    let raw := s.data.take k
    if raw.isEmpty then none
    else
      match lastIdxOf ')' s.data with
      | none => none
      | some j =>
        if j ≤ k then none
        else
          let inner : String := ⟨(s.data.drop (k + 1)).take (j - k - 1)⟩
          let ty := pyStrip inner
          if ty = "" then none
          else
            let core := pyStrip ⟨raw⟩
            let name :=
              if core = "" then
                match raw.getLast? with
                | some c => (⟨[c]⟩ : String)
                | none => ""
              else core
            some (name, ty)

/-- The `_escape_args_and_kwargs` helper. -/
def escapeArgsKwargs (name : String) : String :=
  if pyStartswith name "**" then "\\*\\*" ++ pyDrop name 2
  else if pyStartswith name "*" then "\\*" ++ pyDrop name 1
  else name

/-- A `(name, type, description-lines)` field record. -/
structure FieldEntry where
  name : String
  type : String
  descs : List String
deriving DecidableEq, Repr

/-- The `_consume_field` method.  Note the fork drops the after-colon
text from the descriptions: only the indented block is kept. -/
def consumeField (ctx : Option Nat) (parseType preferType : Bool) :
    List String → FieldEntry × List String
  | [] => (⟨"", "", []⟩, [])
  | line :: rest =>
    let (before, _, _) := partitionFieldOnColon line
    let (name1, type1) :=
      if parseType then
        match googleTypedArg before with
        | some (n, t) => (n, t)
        | none => (before, "")
      else (before, "")
    let name2 := escapeArgsKwargs name1
    let (nm, ty) := if preferType && type1 = "" then ("", name2) else (name2, type1)
    let indent := getIndent line + 1
    let (blk, rem) := consumeIndentedBlock ctx indent rest
    (⟨nm, ty, dedent blk⟩, rem)

/-- The `while not self._is_section_break()` loop of `_consume_fields`.
The fuel is the line count, which each iteration strictly decreases. -/
def consumeFieldsAux (ctx : Option Nat) (parseType preferType : Bool) :
    Nat → List String → List FieldEntry × List String
  | 0, lines => ([], lines)
  | fuel + 1, lines =>
    if isSectionBreak ctx lines then ([], lines)
    else
      let (fe, rem) := consumeField ctx parseType preferType lines
      let (fs, rem') := consumeFieldsAux ctx parseType preferType fuel rem
      if fe.name ≠ "" || fe.type ≠ "" || !fe.descs.isEmpty then (fe :: fs, rem')
      else (fs, rem')

/-- The `_consume_fields` method. -/
def consumeFields (ctx : Option Nat) (parseType preferType : Bool)
    (lines : List String) : List FieldEntry × List String :=
  let (_, lines1) := consumeEmpty lines
  consumeFieldsAux ctx parseType preferType (lines1.length + 1) lines1

/-! ### The parsed-docstring record and the per-section reducers

Each reducer returns the updated record, whether the reStructuredText
lines it hands back to `_parse` are nonempty (all that
`self._parsed_lines` is ever tested for is truthiness, in the
`description` branch), and the remaining input lines. -/

/-- Shape of `self.returns`: either the `{"returns": ref}` redirect dict
or the filtered line list. -/
inductive RetVal where
  | ref : String → RetVal
  | lines : List String → RetVal
deriving DecidableEq, Repr

/-- Shape of `self.responses`: either the `{"responses": ref}` redirect
dict or the `_join_subsection` name/value entries. -/
inductive Resps where
  | ref : String → Resps
  | entries : List (String × String) → Resps
deriving DecidableEq, Repr

/-- The attributes a `GoogleDocstring` object may carry after `_parse`:
`none` models a missing attribute (`hasattr` false). -/
structure Doc where
  description : Option String := none
  parameters : Option (List FieldEntry) := none
  returnsAttr : Option RetVal := none
  responses : Option Resps := none
  schemas : Option (String × List String) := none
  requests : Option (String × List String) := none
  tags : Option String := none
  map : Option String := none
  examples : Option (String × List String) := none
deriving DecidableEq, Repr

/-- Python-dict assignment on a string-keyed association list. -/
def assocSet (l : List (String × String)) (k v : String) : List (String × String) :=
  if l.any (fun p => p.1 == k) then
    l.map (fun p => if p.1 == k then (k, v) else p)
  else l ++ [(k, v)]

/-- The line-joining loop of `_join_subsection`: indented lines are
appended to the previous entry line. -/
def joinSubsectionLines : String → List String → List String
  | prev, [] => [prev]
  | prev, l :: rest =>
    if pyStartswith l " " then joinSubsectionLines (prev ++ l) rest
    else if prev ≠ "" then prev :: joinSubsectionLines l rest
    else joinSubsectionLines l rest

/-- The `_join_subsection` method: every joined line must contain a colon
(`name, response = line.split(":", 1)` raises `ValueError` otherwise). -/
def joinSubsection (lines : List String) : Except String (List (String × String)) :=
  (joinSubsectionLines "" lines).foldlM
    (fun acc line =>
      match splitOnce ':' line with
      | (_, Option.none) =>
        .error "ValueError: not enough values to unpack in _join_subsection"
      | (n, Option.some r) => .ok (assocSet acc (pyStrip n) (pyStrip r)))
    []

/-- One reducer result: updated record, nonempty-output flag, remaining
lines. -/
abbrev SectionResult := Except String (Doc × Bool × List String)

def parseParametersSection (ctx : Option Nat) (doc : Doc) (lines : List String) :
    SectionResult :=
  let (fields, rem) := consumeFields ctx true false lines
  -- `_format_docutils_params` always ends with an extra blank entry
  .ok ({doc with parameters := some fields}, true, rem)

def parseKeywordArgsSection (ctx : Option Nat) (doc : Doc) (lines : List String) :
    SectionResult :=
  let (_, rem) := consumeFields ctx true false lines
  -- formats fields but stores no attribute
  .ok (doc, true, rem)

def parseOtherParametersSection (ctx : Option Nat) (doc : Doc) (lines : List String) :
    SectionResult :=
  let (fields, rem) := consumeFields ctx true false lines
  match doc.parameters with
  | Option.none =>
    -- `self.parameters.extend(fields)` without a prior Parameters section
    .error "AttributeError: GoogleDocstring object has no attribute parameters"
  | Option.some ps =>
    -- `_format_fields` yields no lines for an empty field list
    .ok ({doc with parameters := some (ps ++ fields)}, !fields.isEmpty, rem)

def parseAttributesSection (ctx : Option Nat) (doc : Doc) (lines : List String) :
    SectionResult :=
  let (fields, rem) := consumeFields ctx true false lines
  -- formats fields (one block per field) but stores no attribute
  .ok (doc, !fields.isEmpty, rem)

def parseMethodsSection (ctx : Option Nat) (doc : Doc) (lines : List String) :
    SectionResult :=
  let (fields, rem) := consumeFields ctx false false lines
  .ok (doc, !fields.isEmpty, rem)

def parseExamplesSection (sectionName : String) (ctx : Option Nat) (doc : Doc)
    (lines : List String) : SectionResult :=
  let (consumed, rem) := consumeToNextSection ctx lines
  let ls := dedent (stripEmptyLines consumed)
  -- returns the `(section, lines)` pair, so `extend` always adds entries
  .ok ({doc with examples := some (sectionName, ls)}, true, rem)

def parseSchemasSection (sectionName : String) (ctx : Option Nat) (doc : Doc)
    (lines : List String) : SectionResult :=
  let (consumed, rem) := consumeToNextSection ctx lines
  let ls := dedent (stripEmptyLines consumed)
  .ok ({doc with schemas := some (sectionName, ls)}, true, rem)

def parseRequestsSection (sectionName : String) (ctx : Option Nat) (doc : Doc)
    (lines : List String) : SectionResult :=
  let (consumed, rem) := consumeToNextSection ctx lines
  let ls := dedent (stripEmptyLines consumed)
  .ok ({doc with requests := some (sectionName, ls)}, true, rem)

def parseTagsSection (ctx : Option Nat) (doc : Doc) (lines : List String) :
    SectionResult :=
  let (consumed, rem) := consumeToNextSection ctx lines
  let ls := dedent (stripEmptyLines consumed)
  .ok ({doc with tags := some (pyReplace (String.intercalate "," ls) ",," ",")}, true, rem)

def parseMapSection (ctx : Option Nat) (doc : Doc) (lines : List String) :
    SectionResult :=
  let (consumed, rem) := consumeToNextSection ctx lines
  let ls := dedent (stripEmptyLines consumed)
  match ls with
  | [] => .error "IndexError: list index out of range in _parse_map_section"
  | l0 :: _ => .ok ({doc with map := some l0}, true, rem)

/-- The `_parse_responses_section` reducer (`rr` abstracts the
`_ref_repl` regex substitution, whose output no modelled consumer
inspects). -/
def parseResponsesSection (rr : String → String) (ctx : Option Nat) (doc : Doc)
    (lines : List String) : SectionResult :=
  let (consumed, rem) := consumeToNextSection ctx lines
  let filtered := (dedent consumed).filter (· ≠ "")
  if filtered.length == 1 && pyStartswith (pyLower (filtered.headD "")) "see" then
    let l0 := filtered.headD ""
    let hasRef := (l0.splitOn " ").any (fun w => (xrefMatchLen w.data).isSome)
    let resp := if hasRef then Resps.ref (rr l0) else Resps.entries []
    .ok ({doc with responses := some resp}, !filtered.isEmpty, rem)
  else
    match joinSubsection filtered with
    | .ok entries =>
      .ok ({doc with responses := some (.entries entries)}, !filtered.isEmpty, rem)
    | .error e => .error e

/-- The `_parse_returns_section` reducer.  A single dedented line that
starts with "see" makes `_consume_returns_section` fall through without
a `return`, handing `None` to `len(fields)` — a `TypeError`. -/
def parseReturnsSection (ctx : Option Nat) (doc : Doc) (lines : List String) :
    SectionResult :=
  let (consumed, rem) := consumeToNextSection ctx lines
  let ls := dedent consumed
  if ls.length == 1 && pyStartswith (pyLower (ls.headD "")) "see" then
    .error "TypeError: object of type NoneType has no len()"
  else
    let doc := {doc with returnsAttr := some (.lines (ls.filter (· ≠ "")))}
    let fields : List FieldEntry :=
      match ls with
      | [] => []
      | l0 :: restLines =>
        let (before, colon, after) := partitionFieldOnColon l0
        if colon ≠ "" then
          if after ≠ "" then [⟨"", before, after :: restLines⟩]
          else [⟨"", before, restLines⟩]
        else [⟨"", "", ls⟩]
    .ok (doc, !fields.isEmpty, rem)

/-- The `self._sections[section.lower()](section)` dispatch. -/
def dispatchSection (rr : String → String) (sectionName : String) (ctx : Option Nat)
    (doc : Doc) (lines : List String) : SectionResult :=
  if pyLower sectionName = "args" || pyLower sectionName = "arguments" || pyLower sectionName = "parameters" then
    parseParametersSection ctx doc lines
  else if pyLower sectionName = "attributes" then parseAttributesSection ctx doc lines
  else if pyLower sectionName = "example" || pyLower sectionName = "examples" then
    parseExamplesSection sectionName ctx doc lines
  else if pyLower sectionName = "keyword args" || pyLower sectionName = "keyword arguments" then
    parseKeywordArgsSection ctx doc lines
  else if pyLower sectionName = "methods" then parseMethodsSection ctx doc lines
  else if pyLower sectionName = "other parameters" then parseOtherParametersSection ctx doc lines
  else if pyLower sectionName = "schema" || pyLower sectionName = "schemas" then
    parseSchemasSection sectionName ctx doc lines
  else if pyLower sectionName = "map" || pyLower sectionName = "maps" then parseMapSection ctx doc lines
  else if pyLower sectionName = "tag" || pyLower sectionName = "tags" then parseTagsSection ctx doc lines
  else if pyLower sectionName = "request" || pyLower sectionName = "requests" then
    parseRequestsSection sectionName ctx doc lines
  else if pyLower sectionName = "response" || pyLower sectionName = "responses" then
    parseResponsesSection rr ctx doc lines
  else if pyLower sectionName = "return" || pyLower sectionName = "returns" then
    parseReturnsSection ctx doc lines
  else .error "KeyError: unknown section"

/-- The main `while self._line_iter.has_next()` loop of `_parse`.  `pne`
is the truthiness of `self._parsed_lines`; the section-indent instance
state is recomputed per header exactly as in the source. -/
def parseLoop (rr : String → String) : Nat → Bool → Doc → List String → Except String Doc
  | 0, _, _, _ => .error "fuel exhausted"
  | _ + 1, _, doc, [] => .ok doc
  | fuel + 1, pne, doc, l :: rest =>
    if isSectionHeader (l :: rest) then
      let sectionName := consumeSectionHeaderVal l
      let sectionIndent := getCurrentIndent rest
      match dispatchSection rr sectionName (some sectionIndent) doc rest with
      | .error e => .error e
      | .ok (doc', emitted, rem) => parseLoop rr fuel (pne || emitted) doc' rem
    else if !pne then
      let (block, rem1) := consumeContiguous (l :: rest)
      let (empties, rem2) := consumeEmpty rem1
      let ls := block ++ empties
      parseLoop rr fuel (pne || !ls.isEmpty)
        {doc with description := some (String.intercalate " " (ls.map pyLstrip))} rem2
    else
      let (ls, rem) := consumeToNextSection Option.none (l :: rest)
      parseLoop rr fuel (pne || !ls.isEmpty) doc rem

/-- The `GoogleDocstring(docstring)` constructor followed by `_parse`
(with empty `what`/`name`, as every call site in the repository uses):
the modifier rstrips each line, leading blank lines seed
`self._parsed_lines`, and the loop runs on the rest. -/
def parseDocstring (rr : String → String) (docstring : List String) : Except String Doc :=
  match consumeEmpty (docstring.map pyRstrip) with
  | (empties, rem) => parseLoop rr (rem.length + 1) (!empties.isEmpty) {} rem

/-! ### Docstrings without section headers -/

/-- No suffix of the line list starts with a section header. -/
def noHeaders : List String → Bool
  | [] => true
  | l :: rest => !isSectionHeader (l :: rest) && noHeaders rest

/-- The description computed by the first `_consume_contiguous` +
`_consume_empty` pair: space-joined `lstrip`-ped lines of the first
contiguous block together with the blank lines that follow it. -/
def descOf (lines : List String) : String :=
  String.intercalate " "
    ((lines.takeWhile (· ≠ "") ++
      (lines.dropWhile (· ≠ "")).takeWhile (· = "")).map pyLstrip)

/-- The record `_parse` produces when the docstring has no section
headers: every section attribute absent; `description` present exactly
when the first line is non-blank. -/
def noHeadersDoc (ml : List String) : Doc :=
  if (ml.takeWhile (· = "")).isEmpty then
    if ml.isEmpty then {} else {description := some (descOf ml)}
  else {}

theorem noHeaders_cons (l : String) (rest : List String)
    (h : noHeaders (l :: rest) = true) :
    isSectionHeader (l :: rest) = false ∧ noHeaders rest = true := by
  simp only [noHeaders, Bool.and_eq_true, Bool.not_eq_true'] at h
  exact h

theorem noHeaders_dropWhile (p : String → Bool) :
    ∀ (ls : List String), noHeaders ls = true → noHeaders (ls.dropWhile p) = true
  | [], h => h
  | l :: rest, h => by
    obtain ⟨_, hrest⟩ := noHeaders_cons l rest h
    by_cases hp : p l
    · simp only [List.dropWhile_cons, hp, if_true]
      exact noHeaders_dropWhile p rest hrest
    · simpa [List.dropWhile_cons, hp] using h

theorem consumeEmpty_eq :
    ∀ (ls : List String),
      consumeEmpty ls = (ls.takeWhile (· = ""), ls.dropWhile (· = ""))
  | [] => rfl
  | l :: rest => by
    by_cases hl : l = ""
    · simp [consumeEmpty, hl, List.takeWhile_cons, List.dropWhile_cons,
            consumeEmpty_eq rest]
    · simp [consumeEmpty, hl, List.takeWhile_cons, List.dropWhile_cons]

theorem consumeContiguous_eq :
    ∀ (ls : List String), noHeaders ls = true →
      consumeContiguous ls = (ls.takeWhile (· ≠ ""), ls.dropWhile (· ≠ ""))
  | [], _ => rfl
  | l :: rest, h => by
    obtain ⟨hhd, hrest⟩ := noHeaders_cons l rest h
    by_cases hl : l = ""
    · simp [consumeContiguous, hl, List.takeWhile_cons, List.dropWhile_cons]
    · simp [consumeContiguous, hl, hhd, List.takeWhile_cons, List.dropWhile_cons,
            consumeContiguous_eq rest hrest]

theorem consumeCore_noHeaders :
    ∀ (ls : List String), noHeaders ls = true →
      consumeToNextSectionCore Option.none ls = (ls, [])
  | [], _ => rfl
  | l :: rest, h => by
    obtain ⟨hhd, hrest⟩ := noHeaders_cons l rest h
    simp [consumeToNextSectionCore, isSectionBreak, hhd,
          consumeCore_noHeaders rest hrest]

theorem length_dropWhile_le (p : String → Bool) :
    ∀ (ls : List String), (ls.dropWhile p).length ≤ ls.length
  | [] => Nat.le_refl _
  | l :: rest => by
    by_cases hp : p l
    · simp only [List.dropWhile_cons, hp, if_true]
      exact Nat.le_trans (length_dropWhile_le p rest) (Nat.le_succ _)
    · simp [List.dropWhile_cons, hp]

theorem consumeToNextSection_noHeaders (ls : List String)
    (h : noHeaders ls = true) :
    (consumeToNextSection Option.none ls).2 = [] := by
  simp only [consumeToNextSection, consumeEmpty_eq,
    consumeCore_noHeaders _ (noHeaders_dropWhile _ ls h), List.dropWhile_nil]

/-- A section-header line is never blank (the regex needs a word and a
colon). -/
theorem isSectionHeader_ne_blank (l : String) (rest : List String)
    (h : isSectionHeader (l :: rest) = true) : l ≠ "" := by
  intro hl
  subst hl
  simp [isSectionHeader, stripSpaces, stripChar, pyLower,
        matchesSectionRegex] at h

theorem parseLoop_noHeaders (rr : String → String) :
    ∀ (fuel : Nat) (lines : List String) (doc : Doc),
      noHeaders lines = true → lines.length < fuel →
      (parseLoop rr fuel true doc lines = .ok doc ∧
       ((match lines with | [] => True | l :: _ => l ≠ "") →
        parseLoop rr fuel false doc lines =
          .ok (if lines.isEmpty then doc
               else {doc with description := some (descOf lines)})))
  | 0, lines, doc => by intro _ hlen; exact absurd hlen (by omega)
  | fuel + 1, [], doc => by
    intro _ _
    exact ⟨rfl, fun _ => rfl⟩
  | fuel + 1, l :: rest, doc => by
    intro h hlen
    obtain ⟨hhd, hrest⟩ := noHeaders_cons l rest h
    have hfuel : rest.length < fuel := Nat.lt_of_succ_lt_succ hlen
    have hfuel0 : 0 < fuel := Nat.lt_of_le_of_lt (Nat.zero_le _) hfuel
    refine ⟨?_, ?_⟩
    · -- `pne = true`: the consume-to-next-section branch eats everything
      rcases hp : consumeToNextSection Option.none (l :: rest) with ⟨ls0, rem0⟩
      have hrem0 : rem0 = [] := by
        have := consumeToNextSection_noHeaders (l :: rest) h
        rw [hp] at this
        exact this
      have ih := (parseLoop_noHeaders rr fuel [] doc rfl hfuel0).1
      simp only [parseLoop, hhd, Bool.false_eq_true, if_false, Bool.not_true,
                 hp, hrem0, Bool.true_or]
      exact ih
    · -- `pne = false` with a non-blank first line: the description branch
      intro hne
      simp only at hne
      rcases hp1 : consumeContiguous (l :: rest) with ⟨block, rem1⟩
      rcases hp2 : consumeEmpty rem1 with ⟨empties, rem2⟩
      have hcc := consumeContiguous_eq (l :: rest) h
      rw [hp1] at hcc
      have hblock : block = (l :: rest).takeWhile (· ≠ "") :=
        congrArg Prod.fst hcc
      have hrem1 : rem1 = (l :: rest).dropWhile (· ≠ "") :=
        congrArg Prod.snd hcc
      have hce := consumeEmpty_eq rem1
      rw [hp2] at hce
      have hempties : empties = rem1.takeWhile (· = "") :=
        congrArg Prod.fst hce
      have hrem2 : rem2 = rem1.dropWhile (· = "") :=
        congrArg Prod.snd hce
      have hblockne : (block ++ empties).isEmpty = false := by
        rw [hblock]
        simp [List.takeWhile_cons, hne]
      have hdesc : String.intercalate " " ((block ++ empties).map pyLstrip)
          = descOf (l :: rest) := by
        rw [descOf, hblock, hempties, hrem1]
      have hlen2 : rem2.length < fuel := by
        have h1 : rem1.length ≤ rest.length := by
          rw [hrem1]
          simp only [List.dropWhile_cons, hne, decide_not, if_pos]
          · exact length_dropWhile_le _ rest
        calc rem2.length ≤ rem1.length := hrem2 ▸ length_dropWhile_le _ rem1
          _ ≤ rest.length := h1
          _ < fuel := hfuel
      have hnh2 : noHeaders rem2 = true := by
        rw [hrem2, hrem1]
        exact noHeaders_dropWhile _ _ (noHeaders_dropWhile _ _ h)
      have ih := (parseLoop_noHeaders rr fuel rem2
        {doc with description := some (descOf (l :: rest))} hnh2 hlen2).1
      simp only [parseLoop, hhd, Bool.false_eq_true, if_false, Bool.not_false,
                 if_true, hp1, hp2, hblockne, hdesc, Bool.false_or,
                 List.isEmpty_cons, Bool.not_true]
      exact ih

/-- The full characterization of parsing a docstring that contains no
section headers: never an exception, no section attribute, and the
description present exactly when the first (rstripped) line is
non-blank. -/
theorem parseDocstring_noHeaders (rr : String → String) (lines : List String)
    (h : noHeaders (lines.map pyRstrip) = true) :
    parseDocstring rr lines = .ok (noHeadersDoc (lines.map pyRstrip)) := by
  unfold parseDocstring noHeadersDoc
  rw [consumeEmpty_eq]
  by_cases hemp : ((lines.map pyRstrip).takeWhile (· = "")).isEmpty
  · -- no leading blank lines: the whole list survives the initial consume
    have hdw : (lines.map pyRstrip).dropWhile (· = "") = lines.map pyRstrip := by
      cases hml : lines.map pyRstrip with
      | nil => rfl
      | cons l rest =>
        rw [hml] at hemp
        by_cases hl : l = ""
        · simp [List.takeWhile_cons, hl] at hemp
        · simp [List.dropWhile_cons, hl]
    rw [hdw, hemp]
    simp only [Bool.not_true, if_true]
    cases hml : lines.map pyRstrip with
    | nil => simp [parseLoop]
    | cons l rest =>
      have hne : l ≠ "" := by
        rw [hml] at hemp
        intro hl
        simp [List.takeWhile_cons, hl] at hemp
      have h' : noHeaders (l :: rest) = true := hml ▸ h
      have := ((parseLoop_noHeaders rr ((l :: rest).length + 1) (l :: rest) {}
        h' (Nat.lt_succ_self _)).2) (by simpa using hne)
      simpa [List.takeWhile_cons, hne] using this
  · -- leading blank lines seed `_parsed_lines`: description stays absent
    simp only [hemp, Bool.not_false, if_false]
    have hnh := noHeaders_dropWhile (· = "") (lines.map pyRstrip) h
    exact (parseLoop_noHeaders rr _ _ {} hnh (Nat.lt_succ_self _)).1

/-! ### C3: the section-header rule -/

/-- The spec's phrasing of the `word(s) + ':'` shape, as a decomposition:
a nonempty run of word/whitespace characters, a colon, then whitespace. -/
def specHeaderWordColon (t : String) : Prop :=
  ∃ w trail : List Char, t.data = w ++ ':' :: trail ∧ w ≠ [] ∧
    (∀ c ∈ w, c.isWhitespace = true ∨ isWordChar c = true) ∧
    (∀ c ∈ trail, c.isWhitespace = true)

theorem dropWhile_append_of_all {α : Type} (p : α → Bool) (a b : List α)
    (h : ∀ c ∈ a, p c = true) : (a ++ b).dropWhile p = b.dropWhile p := by
  induction a with
  | nil => rfl
  | cons x xs ih =>
    simp only [List.cons_append, List.dropWhile_cons, h x (List.mem_cons_self x xs),
               if_true]
    exact ih (fun c hc => h c (List.mem_cons_of_mem x hc))

theorem matchesSectionRegex_iff (t : String) :
    matchesSectionRegex t = true ↔ specHeaderWordColon t := by
  unfold matchesSectionRegex
  constructor
  · intro h
    split at h
    case h_1 w hu =>
      simp only [Bool.and_eq_true, Bool.not_eq_true', List.isEmpty_eq_false,
                 List.all_eq_true] at h
      refine ⟨w.reverse, (t.data.reverse.takeWhile Char.isWhitespace).reverse,
        ?_, ?_, ?_, ?_⟩
      · have hsplit := List.takeWhile_append_dropWhile Char.isWhitespace t.data.reverse
        rw [hu] at hsplit
        calc t.data = t.data.reverse.reverse := (List.reverse_reverse _).symm
          _ = (t.data.reverse.takeWhile Char.isWhitespace ++ (':' :: w)).reverse := by
              rw [hsplit]
          _ = w.reverse ++ ':' :: (t.data.reverse.takeWhile Char.isWhitespace).reverse := by
              simp [List.reverse_append]
      · simpa [List.reverse_eq_nil_iff] using h.1
      · intro c hc
        have := h.2 c (List.mem_reverse.mp hc)
        simpa [Bool.or_eq_true] using this
      · intro c hc
        exact List.mem_takeWhile_imp (List.mem_reverse.mp hc)
    case h_2 => exact absurd h (by simp)
  · rintro ⟨w, trail, heq, hw, hpw, htrail⟩
    have hrev : t.data.reverse = trail.reverse ++ ':' :: w.reverse := by
      rw [heq]
      simp [List.reverse_append, List.reverse_cons, List.append_assoc]
    have hdrop : t.data.reverse.dropWhile Char.isWhitespace = ':' :: w.reverse := by
      rw [hrev, dropWhile_append_of_all _ _ _
        (fun c hc => htrail c (List.mem_reverse.mp hc))]
      simp [List.dropWhile_cons]
    rw [hdrop]
    simp only [Bool.and_eq_true, Bool.not_eq_true', List.isEmpty_eq_false,
               List.all_eq_true]
    refine ⟨by simpa [List.reverse_eq_nil_iff] using hw, ?_⟩
    intro c hc
    have := hpw c (List.mem_reverse.mp hc)
    simpa [Bool.or_eq_true] using this

/-- The claim's header rule as written: same regex and known-name tests,
but comparing the lookahead indent against *the header line's own
indentation* (the raw line's indent, not the stripped one). -/
def claimedHeaderRule (l : String) (rest : List String) : Bool :=
  matchesSectionRegex (stripSpaces (pyLower l)) &&
  sectionKeys.contains (stripColons (stripSpaces (pyLower l))) &&
  decide (getCurrentIndent rest > getIndent l)

/-- Counterexample to C3 as stated: for the indented header line
`"  Args:"` followed by the less-deeply indented `" x"`, the code
recognizes a section header (the stripped header's indent is 0 and the
lookahead indent 1 exceeds it) while the claim's rule — strictly deeper
than the header line's own indentation of 2 — says it is not one. -/
theorem C3_header_indent_counterexample :
    isSectionHeader ["  Args:", " x"] = true ∧
    claimedHeaderRule "  Args:" [" x"] = false := by
  exact ⟨rfl, rfl⟩

/-- C3 (amended).  A line is a section header exactly when the
stripped-lowercased line matches `word(s) + ':'`, its colon-stripped form
is a known section name, and the following non-blank line is indented
strictly deeper than the indentation remaining in the *stripped* header
line — which is zero for any space-indented header, so in effect the
lookahead line need only be indented at all; an unknown colon-terminated
line is never a header. -/
theorem C3_header_rule_amended (l : String) (rest : List String) :
    isSectionHeader (l :: rest) = true ↔
      (specHeaderWordColon (stripSpaces (pyLower l)) ∧
       stripColons (stripSpaces (pyLower l)) ∈ sectionKeys ∧
       getCurrentIndent rest > getIndent (stripSpaces (pyLower l))) := by
  simp only [isSectionHeader]
  by_cases hcond : (matchesSectionRegex (stripSpaces (pyLower l)) &&
      sectionKeys.contains (stripColons (stripSpaces (pyLower l)))) = true
  · rw [if_pos hcond]
    simp only [Bool.and_eq_true, List.elem_iff] at hcond
    simp only [decide_eq_true_eq]
    constructor
    · intro h3
      exact ⟨(matchesSectionRegex_iff _).mp hcond.1, hcond.2, h3⟩
    · rintro ⟨-, -, h3⟩
      exact h3
  · rw [if_neg hcond]
    simp only [Bool.false_eq_true, false_iff]
    rintro ⟨h1, h2, h3⟩
    refine hcond ?_
    simp only [Bool.and_eq_true, List.elem_iff]
    exact ⟨(matchesSectionRegex_iff _).mpr h1, h2⟩

/-! ### C4: description absence when the docstring starts with a header -/

theorem parseParametersSection_description (ctx : Option Nat) (doc : Doc)
    (lines : List String) (doc' : Doc) (e : Bool) (r : List String)
    (h : parseParametersSection ctx doc lines = .ok (doc', e, r)) :
    doc'.description = doc.description := by
  unfold parseParametersSection at h
  repeat' split at h
  all_goals simp only [Except.ok.injEq, Prod.mk.injEq, reduceCtorEq] at h
  all_goals (obtain ⟨h1, -, -⟩ := h; rw [← h1])

theorem parseKeywordArgsSection_description (ctx : Option Nat) (doc : Doc)
    (lines : List String) (doc' : Doc) (e : Bool) (r : List String)
    (h : parseKeywordArgsSection ctx doc lines = .ok (doc', e, r)) :
    doc'.description = doc.description := by
  unfold parseKeywordArgsSection at h
  repeat' split at h
  all_goals simp only [Except.ok.injEq, Prod.mk.injEq, reduceCtorEq] at h
  all_goals (obtain ⟨h1, -, -⟩ := h; rw [← h1])

theorem parseOtherParametersSection_description (ctx : Option Nat) (doc : Doc)
    (lines : List String) (doc' : Doc) (e : Bool) (r : List String)
    (h : parseOtherParametersSection ctx doc lines = .ok (doc', e, r)) :
    doc'.description = doc.description := by
  unfold parseOtherParametersSection at h
  repeat' split at h
  all_goals simp only [Except.ok.injEq, Prod.mk.injEq, reduceCtorEq] at h
  all_goals (obtain ⟨h1, -, -⟩ := h; rw [← h1])

theorem parseAttributesSection_description (ctx : Option Nat) (doc : Doc)
    (lines : List String) (doc' : Doc) (e : Bool) (r : List String)
    (h : parseAttributesSection ctx doc lines = .ok (doc', e, r)) :
    doc'.description = doc.description := by
  unfold parseAttributesSection at h
  repeat' split at h
  all_goals simp only [Except.ok.injEq, Prod.mk.injEq, reduceCtorEq] at h
  all_goals (obtain ⟨h1, -, -⟩ := h; rw [← h1])

theorem parseMethodsSection_description (ctx : Option Nat) (doc : Doc)
    (lines : List String) (doc' : Doc) (e : Bool) (r : List String)
    (h : parseMethodsSection ctx doc lines = .ok (doc', e, r)) :
    doc'.description = doc.description := by
  unfold parseMethodsSection at h
  repeat' split at h
  all_goals simp only [Except.ok.injEq, Prod.mk.injEq, reduceCtorEq] at h
  all_goals (obtain ⟨h1, -, -⟩ := h; rw [← h1])

theorem parseExamplesSection_description (sectionName : String) (ctx : Option Nat)
    (doc : Doc) (lines : List String) (doc' : Doc) (e : Bool) (r : List String)
    (h : parseExamplesSection sectionName ctx doc lines = .ok (doc', e, r)) :
    doc'.description = doc.description := by
  unfold parseExamplesSection at h
  repeat' split at h
  all_goals simp only [Except.ok.injEq, Prod.mk.injEq, reduceCtorEq] at h
  all_goals (obtain ⟨h1, -, -⟩ := h; rw [← h1])

theorem parseSchemasSection_description (sectionName : String) (ctx : Option Nat)
    (doc : Doc) (lines : List String) (doc' : Doc) (e : Bool) (r : List String)
    (h : parseSchemasSection sectionName ctx doc lines = .ok (doc', e, r)) :
    doc'.description = doc.description := by
  unfold parseSchemasSection at h
  repeat' split at h
  all_goals simp only [Except.ok.injEq, Prod.mk.injEq, reduceCtorEq] at h
  all_goals (obtain ⟨h1, -, -⟩ := h; rw [← h1])

theorem parseRequestsSection_description (sectionName : String) (ctx : Option Nat)
    (doc : Doc) (lines : List String) (doc' : Doc) (e : Bool) (r : List String)
    (h : parseRequestsSection sectionName ctx doc lines = .ok (doc', e, r)) :
    doc'.description = doc.description := by
  unfold parseRequestsSection at h
  repeat' split at h
  all_goals simp only [Except.ok.injEq, Prod.mk.injEq, reduceCtorEq] at h
  all_goals (obtain ⟨h1, -, -⟩ := h; rw [← h1])

theorem parseTagsSection_description (ctx : Option Nat) (doc : Doc)
    (lines : List String) (doc' : Doc) (e : Bool) (r : List String)
    (h : parseTagsSection ctx doc lines = .ok (doc', e, r)) :
    doc'.description = doc.description := by
  unfold parseTagsSection at h
  repeat' split at h
  all_goals simp only [Except.ok.injEq, Prod.mk.injEq, reduceCtorEq] at h
  all_goals (obtain ⟨h1, -, -⟩ := h; rw [← h1])

theorem parseMapSection_description (ctx : Option Nat) (doc : Doc)
    (lines : List String) (doc' : Doc) (e : Bool) (r : List String)
    (h : parseMapSection ctx doc lines = .ok (doc', e, r)) :
    doc'.description = doc.description := by
  unfold parseMapSection at h
  rcases hp : consumeToNextSection ctx lines with ⟨a, b⟩
  rw [hp] at h
  dsimp only [] at h
  cases hd : dedent (stripEmptyLines a) with
  | nil => rw [hd] at h; simp at h
  | cons l0 tail =>
    rw [hd] at h
    simp only [Except.ok.injEq, Prod.mk.injEq] at h
    obtain ⟨h1, -, -⟩ := h
    rw [← h1]

theorem parseResponsesSection_description (rr : String → String) (ctx : Option Nat)
    (doc : Doc) (lines : List String) (doc' : Doc) (e : Bool) (r : List String)
    (h : parseResponsesSection rr ctx doc lines = .ok (doc', e, r)) :
    doc'.description = doc.description := by
  unfold parseResponsesSection at h
  rcases hp : consumeToNextSection ctx lines with ⟨a, b⟩
  rw [hp] at h
  dsimp only [] at h
  split at h
  · simp only [Except.ok.injEq, Prod.mk.injEq] at h
    obtain ⟨h1, -, -⟩ := h
    rw [← h1]
  · split at h
    · simp only [Except.ok.injEq, Prod.mk.injEq] at h
      obtain ⟨h1, -, -⟩ := h
      rw [← h1]
    · simp at h

theorem parseReturnsSection_description (ctx : Option Nat) (doc : Doc)
    (lines : List String) (doc' : Doc) (e : Bool) (r : List String)
    (h : parseReturnsSection ctx doc lines = .ok (doc', e, r)) :
    doc'.description = doc.description := by
  unfold parseReturnsSection at h
  rcases hp : consumeToNextSection ctx lines with ⟨a, b⟩
  rw [hp] at h
  dsimp only [] at h
  split at h
  · simp at h
  · simp only [Except.ok.injEq, Prod.mk.injEq] at h
    obtain ⟨h1, -, -⟩ := h
    rw [← h1]

theorem dispatchSection_description (rr : String → String) (sectionName : String)
    (ctx : Option Nat) (doc : Doc) (lines : List String) (doc' : Doc) (e : Bool)
    (r : List String)
    (h : dispatchSection rr sectionName ctx doc lines = .ok (doc', e, r)) :
    doc'.description = doc.description := by
  unfold dispatchSection at h
  by_cases c1 : (decide (pyLower sectionName = "args") ||
      decide (pyLower sectionName = "arguments") ||
      decide (pyLower sectionName = "parameters")) = true
  · rw [if_pos c1] at h
    exact parseParametersSection_description _ _ _ _ _ _ h
  rw [if_neg c1] at h
  by_cases c2 : pyLower sectionName = "attributes"
  · rw [if_pos c2] at h
    exact parseAttributesSection_description _ _ _ _ _ _ h
  rw [if_neg c2] at h
  by_cases c3 : (decide (pyLower sectionName = "example") ||
      decide (pyLower sectionName = "examples")) = true
  · rw [if_pos c3] at h
    exact parseExamplesSection_description _ _ _ _ _ _ _ h
  rw [if_neg c3] at h
  by_cases c4 : (decide (pyLower sectionName = "keyword args") ||
      decide (pyLower sectionName = "keyword arguments")) = true
  · rw [if_pos c4] at h
    exact parseKeywordArgsSection_description _ _ _ _ _ _ h
  rw [if_neg c4] at h
  by_cases c5 : pyLower sectionName = "methods"
  · rw [if_pos c5] at h
    exact parseMethodsSection_description _ _ _ _ _ _ h
  rw [if_neg c5] at h
  by_cases c6 : pyLower sectionName = "other parameters"
  · rw [if_pos c6] at h
    exact parseOtherParametersSection_description _ _ _ _ _ _ h
  rw [if_neg c6] at h
  by_cases c7 : (decide (pyLower sectionName = "schema") ||
      decide (pyLower sectionName = "schemas")) = true
  · rw [if_pos c7] at h
    exact parseSchemasSection_description _ _ _ _ _ _ _ h
  rw [if_neg c7] at h
  by_cases c8 : (decide (pyLower sectionName = "map") ||
      decide (pyLower sectionName = "maps")) = true
  · rw [if_pos c8] at h
    exact parseMapSection_description _ _ _ _ _ _ h
  rw [if_neg c8] at h
  by_cases c9 : (decide (pyLower sectionName = "tag") ||
      decide (pyLower sectionName = "tags")) = true
  · rw [if_pos c9] at h
    exact parseTagsSection_description _ _ _ _ _ _ h
  rw [if_neg c9] at h
  by_cases c10 : (decide (pyLower sectionName = "request") ||
      decide (pyLower sectionName = "requests")) = true
  · rw [if_pos c10] at h
    exact parseRequestsSection_description _ _ _ _ _ _ _ h
  rw [if_neg c10] at h
  by_cases c11 : (decide (pyLower sectionName = "response") ||
      decide (pyLower sectionName = "responses")) = true
  · rw [if_pos c11] at h
    exact parseResponsesSection_description _ _ _ _ _ _ _ h
  rw [if_neg c11] at h
  by_cases c12 : (decide (pyLower sectionName = "return") ||
      decide (pyLower sectionName = "returns")) = true
  · rw [if_pos c12] at h
    exact parseReturnsSection_description _ _ _ _ _ _ h
  rw [if_neg c12] at h
  exact absurd h (by simp)

/-- Once `self._parsed_lines` is nonempty, the loop never writes
`description` again. -/
theorem parseLoop_description_frozen (rr : String → String) :
    ∀ (fuel : Nat) (doc : Doc) (lines : List String) (d : Doc),
      parseLoop rr fuel true doc lines = .ok d → d.description = doc.description
  | 0, doc, lines, d => by
    intro h
    exact absurd h (by simp [parseLoop])
  | fuel + 1, doc, [], d => by
    intro h
    simp only [parseLoop, Except.ok.injEq] at h
    rw [← h]
  | fuel + 1, doc, l :: rest, d => by
    intro h
    by_cases hdr : isSectionHeader (l :: rest)
    · simp only [parseLoop, hdr, if_true] at h
      rcases hd : dispatchSection rr (consumeSectionHeaderVal l)
          (some (getCurrentIndent rest)) doc rest with e' | ⟨doc', em, rem⟩
      · rw [hd] at h; exact absurd h (by simp)
      · rw [hd] at h
        simp only [Bool.true_or] at h
        rw [parseLoop_description_frozen rr fuel doc' rem d h]
        exact dispatchSection_description rr _ _ doc rest doc' em rem hd
    · rcases hp : consumeToNextSection Option.none (l :: rest) with ⟨ls0, rem0⟩
      simp only [parseLoop, hdr, Bool.false_eq_true, if_false, Bool.not_true, hp,
                 Bool.true_or] at h
      exact parseLoop_description_frozen rr fuel doc rem0 d h

/-- Whether the first section of a header-led docstring parses to a
nonempty reStructuredText block (the `lines` the reducer returns to
`_parse`). -/
def firstSectionEmits (rr : String → String) (ml : List String) : Bool :=
  match ml with
  | [] => false
  | l :: rest =>
    match dispatchSection rr (consumeSectionHeaderVal l)
        (some (getCurrentIndent rest)) {} rest with
    | .ok (_, emitted, _) => emitted
    | .error _ => false

/-- C4 (amended).  For a docstring that begins directly with a section
header, the parsed object's `description` attribute is absent whenever
the first section's reducer emits at least one parsed line (always the
case for parameters/keyword-argument/schemas/requests/tags/maps/examples
/responses sections; an attributes, methods or returns section whose
body yields no fields emits nothing, and free text after it then becomes
the description). -/
theorem C4_description_absent_amended (rr : String → String) (lines : List String)
    (d : Doc)
    (hok : parseDocstring rr lines = .ok d)
    (hhdr : isSectionHeader (lines.map pyRstrip) = true)
    (hemit : firstSectionEmits rr (lines.map pyRstrip) = true) :
    d.description = none := by
  unfold parseDocstring at hok
  cases hml : lines.map pyRstrip with
  | nil => rw [hml] at hhdr; simp [isSectionHeader] at hhdr
  | cons l rest =>
    rw [hml] at hok hhdr hemit
    have hne : l ≠ "" := isSectionHeader_ne_blank l rest hhdr
    rw [consumeEmpty_eq] at hok
    simp only [List.takeWhile_cons, List.dropWhile_cons, hne, decide_eq_true_eq,
               if_false, decide_not] at hok
    simp only [List.isEmpty_nil, Bool.not_true] at hok
    unfold firstSectionEmits at hemit
    dsimp only [] at hemit
    simp only [parseLoop, hhdr, if_true] at hok
    rcases hd : dispatchSection rr (consumeSectionHeaderVal l)
        (some (getCurrentIndent rest)) {} rest with e' | ⟨doc', em, rem⟩
    · rw [hd] at hok
      exact absurd hok (by simp)
    · rw [hd] at hemit hok
      dsimp only [] at hemit hok
      rw [hemit] at hok
      simp only [Bool.false_or] at hok
      have hfrozen := parseLoop_description_frozen rr _ doc' rem d hok
      have hdisp := dispatchSection_description rr _ _ {} rest doc' em rem hd
      rw [hfrozen, hdisp]

/-- Counterexample to C4 as stated: `"Attributes:\n    :\nhello"` begins
directly with a recognized section header, yet the attributes reducer
finds no fields in the lone `":"` line, emits nothing, and the trailing
`"hello"` becomes the description. -/
theorem C4_description_counterexample :
    parseDocstring id ["Attributes:", "    :", "hello"] =
      .ok {description := some "hello"} ∧
    isSectionHeader (["Attributes:", "    :", "hello"].map pyRstrip) = true := by
  exact ⟨rfl, rfl⟩

/-- Witness for `C4_description_absent_amended` at the concrete docstring
`"Args:\n    x: y"`. -/
theorem C4_description_absent_amended_witness :
    isSectionHeader (["Args:", "    x: y"].map pyRstrip) = true ∧
    firstSectionEmits id (["Args:", "    x: y"].map pyRstrip) = true ∧
    parseDocstring id ["Args:", "    x: y"] =
      .ok {parameters := some [⟨"x", "", []⟩]} ∧
    ({parameters := some [⟨"x", "", []⟩]} : Doc).description = none :=
  ⟨rfl, rfl, rfl,
   C4_description_absent_amended id ["Args:", "    x: y"] _ rfl rfl rfl⟩

/-! ### C5 and C7: docstrings without section headers -/

/-- Counterexample to C5 as stated: the docstring `"\nhello"` has no
section headers, yet its parsed object has no `description` attribute at
all (the leading blank line seeds `self._parsed_lines`, so the
description branch never runs), rather than the claimed full stripped
text. -/
theorem C5_description_counterexample :
    parseDocstring id ["", "hello"] = .ok {} ∧
    noHeaders (["", "hello"].map pyRstrip) = true ∧
    ({} : Doc).description = none := by
  exact ⟨rfl, rfl, rfl⟩

/-- C5 (amended).  For every docstring without section headers the parse
succeeds, no section attribute is present, and `description` is present
exactly when the first (rstripped) line is non-blank, in which case it
is the space-join of the `lstrip`-ped lines of the first contiguous
block together with the blank lines that follow it (never the rest of a
multi-paragraph text). -/
theorem C5_no_headers_amended (rr : String → String) (lines : List String)
    (h : noHeaders (lines.map pyRstrip) = true) :
    parseDocstring rr lines = .ok (noHeadersDoc (lines.map pyRstrip)) :=
  parseDocstring_noHeaders rr lines h

/-- Witness for `C5_no_headers_amended` at the docstring `"hello"`. -/
theorem C5_no_headers_amended_witness :
    noHeaders (["hello"].map pyRstrip) = true ∧
    parseDocstring id ["hello"] = .ok (noHeadersDoc (["hello"].map pyRstrip)) ∧
    noHeadersDoc (["hello"].map pyRstrip) = {description := some "hello"} :=
  ⟨rfl, C5_no_headers_amended id ["hello"] rfl, rfl⟩

/-- Counterexample to C7 as stated: constructing `GoogleDocstring` *can*
raise — a `Responses:` section whose entry line has no colon raises
`ValueError` in `_join_subsection`, and a `Maps:` section whose body is
immediately another section header leaves the map reducer with no lines
and raises `IndexError` on `lines[0]`. -/
theorem C7_parser_raises_counterexample :
    parseDocstring id ["Responses:", "    foo"] =
      .error "ValueError: not enough values to unpack in _join_subsection" ∧
    parseDocstring id ["Maps:", "    Args:", "        x: y"] =
      .error "IndexError: list index out of range in _parse_map_section" := by
  exact ⟨rfl, rfl⟩

/-- C7 (amended).  Parsing never raises on docstrings without section
headers: malformed indentation, dangling blocks and odd shapes all
degrade to text.  With sections present, the `Responses`, `Maps`,
`Returns` ("see"-style single line) and `Other Parameters` (without a
prior parameters section) reducers can raise. -/
theorem C7_no_raise_amended (rr : String → String) (lines : List String)
    (h : noHeaders (lines.map pyRstrip) = true) :
    ∃ d, parseDocstring rr lines = .ok d :=
  ⟨_, parseDocstring_noHeaders rr lines h⟩

/-- Witness for `C7_no_raise_amended` on a docstring with dangling
indentation at end of input. -/
theorem C7_no_raise_amended_witness :
    noHeaders (["text", "   dangling indent"].map pyRstrip) = true ∧
    (∃ d, parseDocstring id ["text", "   dangling indent"] = .ok d) :=
  ⟨rfl, C7_no_raise_amended id ["text", "   dangling indent"] rfl⟩

/-! ## `parser.py`: operation-id generation (`template_subroutine`, `get_opId`)

The template machinery is pure string manipulation; the regexes
(`re.split` on a captured `%[a-zA-Z]`, `re.findall`/`re.sub` on the
non-greedy `\\[.+?\\]`, `re.match` on `^(.*?)%`) are implemented as
character scanners below. -/

/-- Python `str.upper` (ASCII). -/
def pyUpper (s : String) : String := ⟨s.data.map Char.toUpper⟩

/-- Python `str.title` (ASCII): a letter is uppercased after a
non-letter, lowercased after a letter. -/
def pyTitleAux : Bool → List Char → List Char
  | _, [] => []
  | prevAlpha, c :: cs =>
    (if c.isAlpha then (if prevAlpha then c.toLower else c.toUpper) else c) ::
      pyTitleAux c.isAlpha cs

def pyTitle (s : String) : String := ⟨pyTitleAux false s.data⟩

/-- The `capitalize` helper of `parser.py`: `x[0].upper() + x[1:]`.
Callers only apply it to nonempty strings (Python raises `IndexError`
otherwise; `get_opId` below checks the one eager use). -/
def capitalize (s : String) : String :=
  match s.data with
  | [] => ""
  | c :: cs => ⟨c.toUpper :: cs⟩

/-- The `capital_case` helper: `x.title().replace("_", "")`. -/
def capitalCase (s : String) : String := pyReplace (pyTitle s) "_" ""

/-- The `camel_case` helper: `capital_case`, then lowercase the first
character (`get_opId` guards the empty case with the Python
`IndexError`). -/
def camelCase (s : String) : String :=
  match (capitalCase s).data with
  | [] => ""
  | c :: cs => ⟨c.toLower :: cs⟩

/-- Python `s.split(c)` for a one-character separator: split at every
occurrence, keeping empty pieces. -/
def splitCharAux (c : Char) : List Char → List Char → List String
  | acc, [] => [⟨acc.reverse⟩]
  | acc, x :: xs =>
    if x = c then ⟨acc.reverse⟩ :: splitCharAux c [] xs
    else splitCharAux c (x :: acc) xs

def pySplitChar (c : Char) (s : String) : List String := splitCharAux c [] s.data

/-- Substring containment (Python `sub in s`). -/
def containsSubAux (pat : List Char) : List Char → Bool
  | [] => strLeq pat []
  | c :: rest => strLeq pat (c :: rest) || containsSubAux pat rest

def pyContains (s sub : String) : Bool := containsSubAux sub.data s.data

/-- Python `str.strip(chars)` with a character set. -/
def stripSet (chars : List Char) (s : String) : String :=
  ⟨((s.data.dropWhile (chars.contains ·)).reverse.dropWhile (chars.contains ·)).reverse⟩

/-- Python `str.lstrip(chars)` with a character set. -/
def lstripSet (chars : List Char) (s : String) : String :=
  ⟨s.data.dropWhile (chars.contains ·)⟩

/-- `re.split(r'(%[a-zA-Z])', x)` with the captured separators kept:
cut the string at every `%` followed by an ASCII letter. -/
def splitPercentAux : List Char → List Char → List String
  | acc, [] => [⟨acc.reverse⟩]
  | acc, ['%'] => [⟨('%' :: acc).reverse⟩]
  | acc, '%' :: c :: rest2 =>
    if c.isAlpha then
      ⟨acc.reverse⟩ :: (⟨['%', c]⟩ : String) :: splitPercentAux [] rest2
    else splitPercentAux ('%' :: acc) (c :: rest2)
  | acc, c :: rest => splitPercentAux (c :: acc) rest

/-- The `[*filter(None, re.split(r'(%[a-zA-Z])', x))]` list. -/
def splitPercent (s : String) : List String :=
  (splitPercentAux [] s.data).filter (· ≠ "")

/-- A component value of `get_opId`: every entry is a string except
`"%p"`, which carries the parameter list. -/
inductive CompVal where
  | s : String → CompVal
  | l : List String → CompVal
deriving DecidableEq, Repr

/-- Python `sep.join(v)`: joining a string iterates its characters. -/
def pyJoinCV (sep : String) : CompVal → String
  | .l xs => String.intercalate sep xs
  | .s st => String.intercalate sep (st.data.map (fun c => (⟨[c]⟩ : String)))

/-- `prefix.join([_ and capitalize(_) for _ in v])` of the `%P` branch. -/
def capJoinCV (sep : String) : CompVal → String
  | .l xs => String.intercalate sep (xs.map (fun w => if w = "" then "" else capitalize w))
  | .s st => String.intercalate sep (st.data.map (fun c => (⟨[c.toUpper]⟩ : String)))

/-- Coerce a component value to a string where Python requires one
(`v.lower()`, `v.upper()`, `capitalize(v)`, `str.replace(_, v)`); a
list value would raise in Python. -/
def cvStr : CompVal → Except String String
  | .s s => .ok s
  | .l _ => .error "TypeError: expected str, got list"

/-- The `for c, v in components.items()` loop of `template_subroutine`,
acting on the mutable piece list `xs`; `Sum.inl` is the early `return`
of the `%p`/`%P` branches. -/
def tsGo (pre : String) : List (String × CompVal) → List String →
    Except String (Sum String (List String))
  | [], xs => .ok (.inr xs)
  | (c, v) :: comps, xs =>
    match xs.findIdx? (fun e => pyLower e = c) with
    | none => tsGo pre comps xs
    | some i =>
      let e := xs.getD i ""
      if e = "%p" then .ok (.inl (pyJoinCV pre v))
      else if e = "%P" then .ok (.inl (capJoinCV pre v))
      else if e = "%h" then
        match cvStr v with
        | .error err => .error err
        | .ok s => tsGo pre comps (xs.set i (pyLower s))
      else if e = "%H" then
        match cvStr v with
        | .error err => .error err
        | .ok s => tsGo pre comps (xs.set i (pyUpper s))
      else if e = pyUpper c then
        match cvStr v with
        | .error err => .error err
        | .ok s => tsGo pre comps (xs.set i (if s = "" then "" else capitalize s))
      else
        match cvStr v with
        | .error err => .error err
        | .ok s => tsGo pre comps (xs.set i s)

/-- `template_subroutine` on a string input: split on `%`-tokens, run
the component loop, and `prefix`-join the non-empty pieces unless a
`%p`/`%P` branch returned early. -/
def templateSubroutine (comps : List (String × CompVal)) (pre : String)
    (x : String) : Except String String :=
  match tsGo pre comps (splitPercent x) with
  | .error e => .error e
  | .ok (.inl s) => .ok s
  | .ok (.inr xs) => .ok (String.intercalate pre (xs.filter (· ≠ "")))

/-- `re.findall(r'\\[.+?\\]', t)`: at each `[`, the lazy match ends at
the first `]` preceded by at least one intervening character; scanning
resumes after the match. -/
def findallBrk : Nat → List Char → List String
  | 0, _ => []
  | _ + 1, [] => []
  | fuel + 1, '[' :: rest =>
    match (rest.drop 1).findIdx? (· = ']') with
    | some k =>
      (⟨'[' :: rest.take (k + 2)⟩ : String) :: findallBrk fuel (rest.drop (k + 2))
    | none => findallBrk fuel rest
  | fuel + 1, _ :: rest => findallBrk fuel rest

/-- `re.sub(r'\\[.+?\\]', repl, t, 1)`: replace the first bracket group. -/
def subFirstBrk (repl : String) : Nat → List Char → List Char
  | 0, cs => cs
  | _ + 1, [] => []
  | fuel + 1, '[' :: rest =>
    match (rest.drop 1).findIdx? (· = ']') with
    | some k => repl.data ++ rest.drop (k + 2)
    | none => '[' :: subFirstBrk repl fuel rest
  | fuel + 1, c :: rest => c :: subFirstBrk repl fuel rest

/-- `re.match(r'^(.*?)%', x)`: the (possibly empty) run before the
first `%`, or `none` when the string has no `%`. -/
def firstPercentPre (s : String) : Option String :=
  if s.data.contains '%' then some ⟨s.data.takeWhile (· ≠ '%')⟩ else none

/-- The `for x in matches` loop of `get_opId`: each bracket group is
stripped, its literal lead becomes the join `prefix`, the group is run
through `template_subroutine`, and the first bracket group still in the
template is replaced by the result. -/
def matchesLoop (comps : List (String × CompVal)) :
    List String → String → Except String String
  | [], t => .ok t
  | m :: ms, t =>
    let x1 := stripSet ['[', ']'] m
    match firstPercentPre x1 with
    | none => matchesLoop comps ms t
    | some pre =>
      match templateSubroutine comps pre (lstripSet pre.data x1) with
      | .error e => .error e
      | .ok x3 => matchesLoop comps ms ⟨subFirstBrk x3 t.data.length t.data⟩

/-- `get_opId` (the unused `aliases` argument is dropped).  The
function object is abstracted to its `__module__`, `__name__` and
`__qualname__` strings and the optional redirect to its
`__qualname__`. -/
def get_opId (name0 : String) (funcMod funcName funcQualname : String)
    (redirQualname : Option String) (params : List String) (method : String)
    (template0 : String) : Except String String :=
  if template0 = "" then .error "ValueError: Template cannot be empty"
  else
    let fname0 := funcName
    let clsname0 :=
      if (pySplitChar '.' funcQualname).length > 1 then
        (pySplitChar '.' funcQualname).headD ""
      else ""
    let clsname :=
      if clsname0 = fname0 && pyContains template0 "%f" then "" else clsname0
    let redir0 :=
      match redirQualname with
      | some q => (pySplitChar '.' q).getLastD ""
      | none => ""
    let redir :=
      if redir0 = fname0 && pyContains template0 "%f" then "" else redir0
    let name := (pySplitChar '/' name0).getLastD ""
    let fname :=
      if fname0 = name && pyContains template0 "%n" then "" else fname0
    if pyContains (⟨template0.data.filter (fun c => c = '[' || c = ']')⟩ : String) "[[" then
      .error ("ValueError: Nested braces are not allowed for template: " ++ template0)
    else if capitalCase funcMod = "" then
      .error "IndexError: string index out of range"
    else
      let comps : List (String × CompVal) :=
        [("%m", .s (camelCase funcMod)), ("%c", .s clsname), ("%f", .s fname),
         ("%r", .s redir), ("%n", .s name), ("%p", .l params), ("%h", .s method)]
      match matchesLoop comps (findallBrk template0.data.length template0.data) template0 with
      | .error e => .error e
      | .ok t => templateSubroutine comps "" t

/-- Counterexample to C8 as stated: with the claimed default template
`[__%C%f%r%n]_[_%p]_%H` the bracket groups are joined into the template
by its single underscores, so the operation id is
`bleh_annot__get_stuff_task_id_op_id_GET`, not the claimed
`bleh_annot__get_stuff__task_id_op_id__GET`; and no final case
conversion of the first letter happens anywhere in `get_opId`. -/
theorem C8_opid_counterexample :
    get_opId "/path/get_stuff" "tests.functions" "bleh_annot" "bleh_annot" none
        ["task_id", "op_id"] "GET" "[__%C%f%r%n]_[_%p]_%H" =
      .ok "bleh_annot__get_stuff_task_id_op_id_GET" ∧
    ("bleh_annot__get_stuff_task_id_op_id_GET" : String) ≠
      "bleh_annot__get_stuff__task_id_op_id__GET" := by
  exact ⟨rfl, by decide⟩

/-- C8 (amended).  The claimed output arises from the template with
doubled separators between the groups, `[__%C%f%r%n]__[_%p]__%H` (the
one the repository's own test uses): for the plain function
`bleh_annot` with no class and no redirect, route basename `get_stuff`,
parameters `task_id`, `op_id` and method GET it renders
`bleh_annot__get_stuff__task_id_op_id__GET`, with no case conversion of
the leading token. -/
theorem C8_opid_amended :
    get_opId "/path/get_stuff" "tests.functions" "bleh_annot" "bleh_annot" none
        ["task_id", "op_id"] "GET" "[__%C%f%r%n]__[_%p]__%H" =
      .ok "bleh_annot__get_stuff__task_id_op_id__GET" := by
  exact rfl

/-! ## `parser.py`: `get_func_for_redirect`

The `exec`/`exec_and_return` symbol environment is abstracted as an
oracle structure over an arbitrary symbol type and `sys.modules` as an
explicit list of loaded module names threaded through the call. -/

/-- A Python function object, abstracted to the two attributes
`get_func_for_redirect` and `get_opId` read. -/
structure PyFunc where
  module : String
  qualname : String
deriving DecidableEq, Repr

/-- The evaluation environment of `get_func_for_redirect`:
`evalGlobal e` is `exec_and_return(e, {**global_modules, **globals()})`,
`evalWithModule m e` the same with `{m: sys.modules[m]}` added,
`importFails m` whether `exec(f"import m")` raises, and
`classLookup m cls attr` the
`getattr(getattr(sys.modules[m], cls), attr)` chain. -/
structure RedirectEnv (σ : Type) where
  evalGlobal : String → Option σ
  evalWithModule : String → String → Option σ
  importFails : String → Bool
  classLookup : String → String → String → Option σ

/-- A successful `import m` adds `m` to `sys.modules` if absent. -/
def redirInsert (st : List String) (m : String) : List String :=
  if st.contains m then st else st ++ [m]

/-- The third `try` block of `get_func_for_redirect`: import the
defining module, then evaluate `last_component.func_name` for a dotted
module or `module.func_name` otherwise; the import persists in the
returned state even when the evaluation fails. -/
def redirAttempt3 (env : RedirectEnv σ) (funcName : String) (rf : PyFunc)
    (st : List String) : Option σ × List String :=
  if env.importFails rf.module then (none, st)
  else if (redirInsert st rf.module).contains rf.module then
    if pyContains rf.module "." then
      (env.evalWithModule rf.module
        ((pySplitChar '.' rf.module).getLastD "" ++ "." ++ funcName),
       redirInsert st rf.module)
    else
      (env.evalWithModule rf.module (rf.module ++ "." ++ funcName),
       redirInsert st rf.module)
  else (none, redirInsert st rf.module)

/-- `get_func_for_redirect`: the four `try` blocks in order, returning
the first success together with the module state. -/
def get_func_for_redirect (env : RedirectEnv σ) (funcName : String)
    (rf : PyFunc) (st : List String) : Option σ × List String :=
  match env.evalGlobal funcName with
  | some f => (some f, st)
  | none =>
  match env.evalGlobal (rf.module ++ "." ++ funcName) with
  | some f => (some f, st)
  | none =>
  match redirAttempt3 env funcName rf st with
  | (some f, st3) => (some f, st3)
  | (none, st3) =>
    if st3.contains rf.module then
      match env.classLookup rf.module
          ((pySplitChar '.' rf.qualname).headD "") funcName with
      | some f => (some f, st3)
      | none => (none, st3)
    else (none, st3)

/-- Strategy 1: direct lookup of the name in the global registry. -/
def redirStrat1 (env : RedirectEnv σ) (funcName : String) : Option σ :=
  env.evalGlobal funcName

/-- Strategy 2: lookup of `module.func_name` in the global registry. -/
def redirStrat2 (env : RedirectEnv σ) (funcName : String) (rf : PyFunc) :
    Option σ :=
  env.evalGlobal (rf.module ++ "." ++ funcName)

/-- Strategy 3: import the defining module and evaluate against it
(last component for a dotted module name, the full name otherwise). -/
def redirStrat3 (env : RedirectEnv σ) (funcName : String) (rf : PyFunc) :
    Option σ :=
  if env.importFails rf.module then none
  else if pyContains rf.module "." then
    env.evalWithModule rf.module
      ((pySplitChar '.' rf.module).getLastD "" ++ "." ++ funcName)
  else env.evalWithModule rf.module (rf.module ++ "." ++ funcName)

/-- Strategy 4 as the code behaves: the class-attribute lookup runs
whenever the defining module is loaded — either because it already was,
or because strategy 3's import succeeded and persists. -/
def redirStrat4 (env : RedirectEnv σ) (funcName : String) (rf : PyFunc)
    (st : List String) : Option σ :=
  if !env.importFails rf.module || st.contains rf.module then
    env.classLookup rf.module ((pySplitChar '.' rf.qualname).headD "") funcName
  else none

/-- Strategy 4 as the claim words it: an attempt independent of the
other attempts, evaluated against the *initial* module state, where
`sys.modules[module]` raises `KeyError` for an unloaded module. -/
def claimedIndepStrat4 (env : RedirectEnv σ) (funcName : String) (rf : PyFunc)
    (st : List String) : Option σ :=
  if st.contains rf.module then
    env.classLookup rf.module ((pySplitChar '.' rf.qualname).headD "") funcName
  else none

/-- Oracle with every lookup failing but module import succeeding. -/
def envRedirAllFail : RedirectEnv Unit :=
  { evalGlobal := fun _ => none, evalWithModule := fun _ _ => none,
    importFails := fun _ => false, classLookup := fun _ _ _ => none }

/-- Oracle where only the class-attribute lookup succeeds. -/
def envRedirClsOnly : RedirectEnv Unit :=
  { evalGlobal := fun _ => none, evalWithModule := fun _ _ => none,
    importFails := fun _ => false, classLookup := fun _ _ _ => some () }

theorem not_mem_of_contains_false (st : List String) (m : String)
    (h : st.contains m = false) : m ∉ st := by
  intro hm
  unfold List.contains at h
  rw [List.elem_eq_true_of_mem hm] at h
  cases h

theorem redirInsert_contains (st : List String) (m : String) :
    (redirInsert st m).contains m = true := by
  unfold redirInsert
  by_cases h : st.contains m = true
  · rw [if_pos h]; exact h
  · rw [if_neg h]
    simp [List.elem_iff]

theorem redirInsert_mem (st : List String) (m : String) :
    m ∈ redirInsert st m :=
  List.mem_of_elem_eq_true (redirInsert_contains st m)

theorem redirInsert_idem (st : List String) (m : String) :
    redirInsert (redirInsert st m) m = redirInsert st m := by
  have h := redirInsert_contains st m
  generalize hg : redirInsert st m = t at h ⊢
  unfold redirInsert
  rw [if_pos h]

/-- Counterexample to C6 as stated: with every lookup failing but
the import succeeding, resolution returns `None` yet permanently adds
the module to `sys.modules` (`[] ↦ ["m"]`), so a failed attempt is not
side-effect-free; and with only the class lookup succeeding from an
initially unloaded module, the code resolves the symbol even though the
claimed independent fourth attempt — read against the initial module
state — fails, so attempt 4 is not independent of attempt 3's import. -/
theorem C6_redirect_side_effect_counterexample :
    (get_func_for_redirect envRedirAllFail "g" ⟨"m", "f"⟩ []).fst = none ∧
    (get_func_for_redirect envRedirAllFail "g" ⟨"m", "f"⟩ []).snd = ["m"] ∧
    (["m"] : List String) ≠ [] ∧
    (get_func_for_redirect envRedirClsOnly "g" ⟨"m", "f"⟩ []).fst = some () ∧
    claimedIndepStrat4 envRedirClsOnly "g" ⟨"m", "f"⟩ [] = none := by
  exact ⟨rfl, rfl, by decide, rfl, rfl⟩

/-- C6 (amended).  `get_func_for_redirect` tries the four lookup
strategies in order and returns the first success, and `None` (never an
exception) when all fail; attempts 1–3 depend only on the registry
oracle, but attempt 4 sees the defining module as loaded whenever
attempt 3's import succeeded, its one persistent side effect. -/
theorem C6_redirect_resolution_amended (σ : Type) (env : RedirectEnv σ)
    (funcName : String) (rf : PyFunc) (st : List String) :
    (get_func_for_redirect env funcName rf st).fst =
      (redirStrat1 env funcName).orElse (fun _ =>
        (redirStrat2 env funcName rf).orElse (fun _ =>
          (redirStrat3 env funcName rf).orElse (fun _ =>
            redirStrat4 env funcName rf st))) := by
  unfold get_func_for_redirect redirAttempt3 redirStrat1 redirStrat2 redirStrat3 redirStrat4
  cases h1 : env.evalGlobal funcName with
  | some f => rfl
  | none =>
    cases h2 : env.evalGlobal (rf.module ++ "." ++ funcName) with
    | some f => rfl
    | none =>
      cases h3 : env.importFails rf.module with
      | true =>
        cases h4 : st.contains rf.module with
        | true =>
          simp only [List.elem_iff] at h4
          cases h5 : env.classLookup rf.module
              ((pySplitChar '.' rf.qualname).headD "") funcName <;>
            simp [h3, h4, h5, Option.orElse]
        | false =>
          have h4m := not_mem_of_contains_false st rf.module h4
          simp [h3, h4m, Option.orElse]
      | false =>
        cases h4 : pyContains rf.module "." with
        | true =>
          cases h5 : env.evalWithModule rf.module
              ((pySplitChar '.' rf.module).getLastD "" ++ "." ++ funcName) with
          | some f => simp [h3, h4, h5, redirInsert_mem, Option.orElse]
          | none =>
            cases h6 : env.classLookup rf.module
                ((pySplitChar '.' rf.qualname).headD "") funcName <;>
              simp [h3, h4, h5, h6, redirInsert_mem, Option.orElse]
        | false =>
          cases h5 : env.evalWithModule rf.module (rf.module ++ "." ++ funcName) with
          | some f => simp [h3, h4, h5, redirInsert_mem, Option.orElse]
          | none =>
            cases h6 : env.classLookup rf.module
                ((pySplitChar '.' rf.qualname).headD "") funcName <;>
              simp [h3, h4, h5, h6, redirInsert_mem, Option.orElse]

/-- C9: redirect resolution is idempotent — re-running
`get_func_for_redirect` with the same arguments from the module state
the first call produced returns the same symbol and the same state. -/
theorem C9_redirect_idempotent (σ : Type) (env : RedirectEnv σ)
    (funcName : String) (rf : PyFunc) (st : List String) :
    get_func_for_redirect env funcName rf
        (get_func_for_redirect env funcName rf st).snd =
      get_func_for_redirect env funcName rf st := by
  unfold get_func_for_redirect redirAttempt3
  cases h1 : env.evalGlobal funcName with
  | some f => rfl
  | none =>
    cases h2 : env.evalGlobal (rf.module ++ "." ++ funcName) with
    | some f => rfl
    | none =>
      cases h3 : env.importFails rf.module with
      | true =>
        cases h4 : st.contains rf.module with
        | true =>
          simp only [List.elem_iff] at h4
          cases h5 : env.classLookup rf.module
              ((pySplitChar '.' rf.qualname).headD "") funcName <;>
            simp [h1, h2, h3, h4, h5, Option.orElse]
        | false =>
          have h4m := not_mem_of_contains_false st rf.module h4
          simp [h1, h2, h3, h4m, Option.orElse]
      | false =>
        cases h4 : pyContains rf.module "." with
        | true =>
          cases h5 : env.evalWithModule rf.module
              ((pySplitChar '.' rf.module).getLastD "" ++ "." ++ funcName) with
          | some f => simp [h1, h2, h3, h4, h5, redirInsert_mem, redirInsert_idem]
          | none =>
            cases h6 : env.classLookup rf.module
                ((pySplitChar '.' rf.qualname).headD "") funcName <;>
              simp [h1, h2, h3, h4, h5, h6, redirInsert_mem, redirInsert_idem]
        | false =>
          cases h5 : env.evalWithModule rf.module (rf.module ++ "." ++ funcName) with
          | some f => simp [h1, h2, h3, h4, h5, redirInsert_mem, redirInsert_idem]
          | none =>
            cases h6 : env.classLookup rf.module
                ((pySplitChar '.' rf.qualname).headD "") funcName <;>
              simp [h1, h2, h3, h4, h5, h6, redirInsert_mem, redirInsert_idem]

/-! ## `parser.py`: route-spec assembly (`get_specs_for_path`, `make_paths`)

The `exec`-based helpers (`get_request_params`, `get_request_body`,
`generate_responses`, the content-type evaluation and the whole
redirect branch of `get_specs_for_path`) are abstracted as oracles in
`SpecsEnv`; the string- and dict-manipulating helpers are embedded
concretely.  A function docstring is carried as its `splitlines()`
list, `none` for `__doc__ is None` (the empty string splits to `[]`,
matching Python falsiness). -/

/-- Generic association-list read (`k in d` / `d[k]`). -/
def assocGet {α : Type} : List (String × α) → String → Option α
  | [], _ => none
  | (k0, v0) :: rest, k => if k0 = k then some v0 else assocGet rest k

/-- Generic association-list write with `dict` semantics. -/
def assocPut {α : Type} : List (String × α) → String → α → List (String × α)
  | [], k, v => [(k, v)]
  | (k0, v0) :: rest, k, v =>
    if k0 = k then (k0, v) :: rest else (k0, v0) :: assocPut rest k v

/-- The boolean of `re.match(r'\<.+\>', x)`: a leading `<` with a `>`
at least two characters later. -/
def matchesAngleVar (x : String) : Bool :=
  match x.data with
  | '<' :: _ :: rest => rest.contains '>'
  | _ => false

/-- The `for x, y in zip(rule_, rulename_)` loop of
`check_function_redirect`. -/
def cfrFold : List (String × String) → String → String → String × String
  | [], var, rest => (var, rest)
  | (x, y) :: more, var, rest =>
    if matchesAngleVar x then
      cfrFold more ⟨(x.data.drop 1).dropLast⟩ (pyReplace rest x y)
    else cfrFold more var rest

/-- `check_function_redirect`: read the `Maps` directive from the
docstring, `ref_repl` (`rr`) its target and substitute the path
variables of the rule name. -/
def check_function_redirect (rr : String → String) (docstr : Option (List String))
    (rulename : String) : Except String (String × String) :=
  match docstr with
  | none => .ok ("", "")
  | some [] => .ok ("", "")
  | some (l :: ls) =>
    match parseDocstring rr (l :: ls) with
    | .error e => .error e
    | .ok d =>
      match d.map with
      | none => .ok ("", "")
      | some mp =>
        match splitOnce ':' mp with
        | (_, none) =>
          .error "ValueError: not enough values to unpack in check_function_redirect"
        | (ruleStr, some restStr) =>
          cfrFold ((pySplitChar '/' (pyStrip ruleStr)).zip (pySplitChar '/' rulename))
            "" (rr (pyStrip restStr)) |> .ok

/-- A request-section value: a one-line string entry or an indented
block collected as a list. -/
inductive ReqVal where
  | s : String → ReqVal
  | l : List String → ReqVal
deriving DecidableEq, Repr

/-- The `for line in lines` loop of `get_requests`, with the Python
failure modes: a top-level line without a colon raises `ValueError`, an
indented first line references `subsection` before assignment, and an
indented line under a string-valued entry calls `append` on a `str`. -/
def getRequestsLoop : Option String → List (String × ReqVal) → List String →
    Except String (List (String × ReqVal))
  | _, sections, [] => .ok sections
  | cur, sections, line :: rest =>
    if pyStartswith line " " then
      match cur with
      | none => .error "UnboundLocalError: subsection referenced before assignment"
      | some sub =>
        match assocGet sections sub with
        | some (.l xs) =>
          getRequestsLoop cur (assocPut sections sub (.l (xs ++ [pyStrip line]))) rest
        | some (.s _) => .error "AttributeError: str object has no attribute append"
        | none => .error "KeyError in get_requests"
    else
      match splitOnce ':' line with
      | (_, none) => .error "ValueError: not enough values to unpack in get_requests"
      | (sub, some val) =>
        if pyStrip val ≠ "" then
          getRequestsLoop (some sub) (assocPut sections sub (.s (pyStrip val))) rest
        else
          getRequestsLoop (some (stripSpaces (stripColons line)))
            (assocPut sections (stripSpaces (stripColons line)) (.l [])) rest

/-- `get_requests` (its unused `method`/`redirect` arguments dropped):
the `Request` section lines keyed by subsection. -/
def get_requests (rr : String → String) (docstr : Option (List String)) :
    Except String (List (String × ReqVal)) :=
  match docstr with
  | none => .ok []
  | some lines =>
    match parseDocstring rr lines with
    | .error e => .error e
    | .ok d =>
      match d.requests with
      | none => .ok []
      | some (_, reqLines) => getRequestsLoop none [] reqLines

/-- `re.sub(r',+', ',', s)`: drop a comma that follows a comma. -/
def collapseCommasAux : Option Char → List Char → List Char
  | _, [] => []
  | prev, c :: rest =>
    if c = ',' && prev = some ',' then collapseCommasAux (some c) rest
    else c :: collapseCommasAux (some c) rest

/-- `get_tags`: spaces removed, comma runs collapsed, split on commas. -/
def get_tags (rr : String → String) (docstr : Option (List String)) :
    Except String (List String) :=
  match docstr with
  | none => .ok []
  | some lines =>
    match parseDocstring rr lines with
    | .error e => .error e
    | .ok d =>
      match d.tags with
      | none => .ok []
      | some tg =>
        let t2 : String := ⟨collapseCommasAux none (tg.data.filter (· ≠ ' '))⟩
        if t2 = "" then .ok [] else .ok (pySplitChar ',' t2)

/-- `re.findall(r"\<(.+?)\>", name)`: the captured contents of the
lazy angle-bracket groups. -/
def findallAngles : Nat → List Char → List String
  | 0, _ => []
  | _ + 1, [] => []
  | fuel + 1, '<' :: rest =>
    match (rest.drop 1).findIdx? (· = '>') with
    | some k =>
      (⟨rest.take (k + 1)⟩ : String) :: findallAngles fuel (rest.drop (k + 2))
    | none => findallAngles fuel rest
  | fuel + 1, _ :: rest => findallAngles fuel rest

/-- The `FlaskTypes` table of `schemas.py`. -/
def flaskTypeOf (s : String) : Option String :=
  if s = "string" then some "str"
  else if s = "int" then some "integer"
  else if s = "integer" then some "integer"
  else if s = "float" then some "float"
  else if s = "uuid" then some "uuid"
  else if s = "path" then some "path"
  else none

/-- `get_params_in_path`: one `path` parameter per `<...>` group, typed
through `FlaskTypes` with the `uuid` format special case. -/
def get_params_in_path (name : String) : List Json :=
  (findallAngles name.data.length name.data).map (fun p =>
    let splits := pySplitChar ':' p
    let pn := if splits.length > 1 then splits.getD 1 "" else p
    let pty :=
      if splits.length > 1 then (flaskTypeOf (splits.headD "")).getD "string"
      else "string"
    jobj [(JKey.s "in", Json.str "path"), (JKey.s "name", Json.str pn),
          (JKey.s "required", Json.bool true),
          (JKey.s "schema",
           if pty = "uuid" then
             jobj [(JKey.s "type", Json.str "string"),
                   (JKey.s "format", Json.str "uuid")]
           else jobj [(JKey.s "type", Json.str pty)])])

/-- The property loop of `schema_to_query_params`: `w.pop("title")`
raises `KeyError` when absent, an optional `required` is hoisted, and
the remaining schema is wrapped as a `query` parameter. -/
def s2qGo : JsonKVs → Except String (List Json)
  | .nil => .ok []
  | .cons k w rest =>
    match w with
    | .obj wkvs =>
      if wkvs.hasKey (JKey.s "title") then
        let w1 := wkvs.erase (JKey.s "title")
        let front : List (JKey × Json) :=
          match w1.lookup (JKey.s "required") with
          | some rv => [(JKey.s "required", rv)]
          | none => []
        match s2qGo rest with
        | .error e => .error e
        | .ok more =>
          .ok (jobj (front ++
                [(JKey.s "name", match k with | .s s => Json.str s | .n n => Json.num n),
                 (JKey.s "in", Json.str "query"),
                 (JKey.s "schema", Json.obj (w1.erase (JKey.s "required")))]) :: more)
      else .error "KeyError: title"
    | _ => .error "AttributeError: pop on non-dict"

def schema_to_query_params (schema : Json) : Except String (List Json) :=
  match schema.get? (JKey.s "properties") with
  | some (.obj props) => s2qGo props
  | some _ => .error "AttributeError: items on non-dict"
  | none => .error "KeyError: properties"

/-- A view function, abstracted to what `get_specs_for_path` and
`make_paths` read from it. -/
structure PyDocFunc where
  module : String
  name : String
  qualname : String
  doc : Option (List String)
  loginRequired : Bool
deriving DecidableEq, Repr

/-- Oracles for the `exec`-based parts of `get_specs_for_path`:
`redirBranch` is the whole `if redirect:` block (description, extra
tags, inferred schema, redirect-function qualname — its internal
`ValueError` raises appear as `.error`), `contentTypeEval` the
`exec_and_return`-with-`MimeTypes`-fallback chain, and
`generateResponses` takes the route name and redirect. -/
structure SpecsEnv where
  rr : String → String
  redirBranch : String → Except String (String × List String × Option Json × Option String)
  getRequestParams : ReqVal → Except String (List Json)
  getRequestBody : ReqVal → Except String Json
  contentTypeEval : ReqVal → Except String String
  generateResponses : String → String → Except String Json

/-- `[x["name"] for x in parameters]`. -/
def paramName (j : Json) : String :=
  match j.get? (JKey.s "name") with
  | some (.str s) => s
  | _ => ""

/-- The description step: the oracled redirect branch when a redirect
is present, else re-parse the function docstring and read
`getattr(doc, "description", "")`. -/
def specsDescStep (env : SpecsEnv) (redirect : String)
    (docstr : Option (List String)) :
    Except String (String × List String × Option Json × Option String) :=
  if redirect ≠ "" then env.redirBranch redirect
  else
    match parseDocstring env.rr (docstr.getD []) with
    | .error e => .error e
    | .ok d => .ok (d.description.getD "", [], none, none)

/-- The `retval` seed: `description`, then `operationId` when
requested (a raise from `get_opId` propagates). -/
def specsOpIdStep (name : String) (mf : PyDocFunc) (redirQual : Option String)
    (parameters0 : List Json) (method : String) (genOpid : Bool)
    (opidTemplate : String) (description : String) : Except String Json :=
  if genOpid then
    match get_opId name mf.module mf.name mf.qualname redirQual
        (parameters0.map paramName) method opidTemplate with
    | .error e => .error e
    | .ok op =>
      .ok (jobj [(JKey.s "description", Json.str description),
                 (JKey.s "operationId", Json.str op)])
  else .ok (jobj [(JKey.s "description", Json.str description)])

/-- `if "params" in request: parameters.extend(get_request_params(...))`. -/
def specsParamsStep (env : SpecsEnv) (request : List (String × ReqVal))
    (parameters0 : List Json) : Except String (List Json) :=
  match assocGet request "params" with
  | some pv =>
    match env.getRequestParams pv with
    | .error e => .error e
    | .ok ps => .ok (parameters0 ++ ps)
  | none => .ok parameters0

/-- `if redirect and redir_schema and method.lower() == "get":
parameters.extend(schema_to_query_params(redir_schema))`. -/
def specsQueryStep (redirect method : String) (redirSchema : Option Json)
    (parameters1 : List Json) : Except String (List Json) :=
  match redirSchema with
  | some s =>
    if redirect ≠ "" && pyLower method = "get" then
      match schema_to_query_params s with
      | .error e => .error e
      | .ok qs => .ok (parameters1 ++ qs)
    else .ok parameters1
  | none => .ok parameters1

/-- The closing `generate_responses` step: success attaches
`responses`, an exception is caught into an empty spec and an error
tuple for the rule. -/
def specsFinish (env : SpecsEnv) (name redirect ruleRule : String)
    (retval : Json) : Except String (Json × Option (String × String)) :=
  match env.generateResponses name redirect with
  | .ok resp => .ok (retval.setKey (JKey.s "responses") resp, none)
  | .error e => .ok (Json.obj .nil, some (ruleRule, e))

/-- `get_specs_for_path`. -/
def get_specs_for_path (env : SpecsEnv) (name ruleRule : String)
    (mf : PyDocFunc) (method : String) (genOpid : Bool) (opidTemplate : String) :
    Except String (Json × Option (String × String)) :=
  match check_function_redirect env.rr mf.doc name with
  | .error e => .error e
  | .ok (_, redirect) =>
  match get_requests env.rr mf.doc with
  | .error e => .error e
  | .ok request =>
  match get_tags env.rr mf.doc with
  | .error e => .error e
  | .ok tags0 =>
  match specsDescStep env redirect mf.doc with
  | .error e => .error e
  | .ok (description, extraTags, redirSchema, redirQual) =>
  match specsOpIdStep name mf redirQual (get_params_in_path name) method genOpid
      opidTemplate description with
  | .error e => .error e
  | .ok retval1 =>
  let retval2 :=
    if tags0 ++ extraTags ≠ [] then
      retval1.setKey (JKey.s "tags") (jarr ((tags0 ++ extraTags).map Json.str))
    else retval1
  match specsParamsStep env request (get_params_in_path name) with
  | .error e => .error e
  | .ok parameters1 =>
  match specsQueryStep redirect method redirSchema parameters1 with
  | .error e => .error e
  | .ok parameters2 =>
  let retval3 :=
    match redirSchema with
    | some s =>
      if redirect ≠ "" && pyLower method = "post" then
        retval2.setKey (JKey.s "requestBody")
          (jobj [(JKey.s "content",
            jobj [(JKey.s "application/json", jobj [(JKey.s "schema", s)])])])
      else retval2
    | none => retval2
  let retval4 :=
    if !parameters2.isEmpty then
      retval3.setKey (JKey.s "parameters") (jarr parameters2)
    else retval3
  match assocGet request "body" with
  | some bodyVal =>
    if pyLower method = "get" then
      .ok (Json.obj .nil, some (ruleRule, "Request body cannot be in GET"))
    else if pyLower method = "post" then
      match env.getRequestBody bodyVal with
      | .error e => .error e
      | .ok body0 =>
        match
          (match assocGet request "content-type" with
           | some ctv => env.contentTypeEval ctv
           | none => .ok "application/json") with
        | .error e => .error e
        | .ok contentType =>
          specsFinish env name redirect ruleRule
            (((retval4.setKey (JKey.s "requestBody")
                (jobj [(JKey.s "content",
                  jobj [(JKey.s contentType,
                    jobj [(JKey.s "schema",
                      (body0.popKey (JKey.s "title")).popKey
                        (JKey.s "description"))])])])).setKey
                (JKey.s "x-codegen-request-body-name") (Json.str "body")))
    else .ok (Json.obj .nil, some (ruleRule, "Only methods GET and POST are supported"))
  | none => specsFinish env name redirect ruleRule retval4

/-- A `werkzeug` rule, abstracted to what the `make_paths` loop reads
(no `MethodView` endpoints). -/
structure SimpleRule where
  rule : String
  methods : List String
  func : PyDocFunc
deriving DecidableEq, Repr

/-- The `default_response` literal of `make_paths`. -/
def defaultResponse : Json :=
  jobj [(JKey.n 200,
    jobj [(JKey.s "content",
      jobj [(JKey.s "application/json",
        jobj [(JKey.s "schema",
          jobj [(JKey.s "type", Json.str "object"),
                (JKey.s "content", jobj []),
                (JKey.s "nullable", Json.bool true)])])])])]

/-- Python truthiness on a JSON value (`not spec["responses"]`). -/
def jsonFalsy : Json → Bool
  | .null => true
  | .bool b => !b
  | .num n => n == 0
  | .str s => s == ""
  | .arr .nil => true
  | .arr (.cons _ _) => false
  | .obj .nil => true
  | .obj (.cons _ _ _) => false

/-- The `<param>` → `{repl}` rewriting that produces the `paths` key. -/
def mpNewname (name : String) : String :=
  (findallAngles name.data.length name.data).foldl
    (fun nn p =>
      let splits := pySplitChar ':' p
      let repl := if splits.length > 1 then splits.getD 1 "" else p
      pyReplace nn ("<" ++ p ++ ">") ("\x7b" ++ repl ++ "\x7d"))
    name

/-- The `for method in rule.methods` loop of `make_paths`. -/
def mpMethods (env : SpecsEnv) (genOpid : Bool) (opidTemplate : String)
    (r : SimpleRule) (newname : String) :
    List String → List (String × List (String × Json)) → List (String × String) →
    Except String (List (String × List (String × Json)) × List (String × String))
  | [], paths, errors => .ok (paths, errors)
  | m :: ms, paths, errors =>
    if m = "GET" || m = "POST" then
      if r.methods.contains "GET" && r.methods.contains "POST" then
        mpMethods env genOpid opidTemplate r newname ms paths
          (errors ++ [(r.rule, "Multiple methods without methodview")])
      else
        match get_specs_for_path env r.rule r.rule r.func (pyLower m) genOpid
            opidTemplate with
        | .error e => .error e
        | .ok (_, some err) =>
          mpMethods env genOpid opidTemplate r newname ms
            (assocPut paths newname
              (assocPut ((assocGet paths newname).getD []) (pyLower m) defaultResponse))
            (errors ++ [err])
        | .ok (spec, none) =>
          mpMethods env genOpid opidTemplate r newname ms
            (assocPut paths newname
              (assocPut ((assocGet paths newname).getD []) (pyLower m)
                (if !r.func.loginRequired then
                   spec.setKey (JKey.s "security") (jarr [])
                 else spec)))
            (if jsonFalsy ((spec.get? (JKey.s "responses")).getD Json.null) then
               errors ++ [(r.rule, "Got empty response spec")]
             else errors)
    else mpMethods env genOpid opidTemplate r newname ms paths errors

/-- The rule loop of `make_paths` (`excl` abstracts the
`any(re.match(e, name) for e in excludes)` test). -/
def mpGo (env : SpecsEnv) (excl : String → Bool) (genOpid : Bool)
    (opidTemplate : String) :
    List SimpleRule → List (String × List (String × Json)) →
    List (String × String) → List String →
    Except String (List (String × List (String × Json)) ×
      List (String × String) × List String)
  | [], paths, errors, excluded => .ok (paths, errors, excluded)
  | r :: rs, paths, errors, excluded =>
    if excl r.rule then
      mpGo env excl genOpid opidTemplate rs paths errors (excluded ++ [r.rule])
    else
      match mpMethods env genOpid opidTemplate r (mpNewname r.rule) r.methods
          (assocPut paths (mpNewname r.rule) []) errors with
      | .error e => .error e
      | .ok (paths1, errors1) =>
        mpGo env excl genOpid opidTemplate rs paths1 errors1 excluded

/-- `make_paths`. -/
def makePaths (env : SpecsEnv) (excl : String → Bool) (genOpid : Bool)
    (opidTemplate : String) (rules : List SimpleRule) :
    Except String (List (String × List (String × Json)) ×
      List (String × String) × List String) :=
  mpGo env excl genOpid opidTemplate rules [] [] []

/-- Concrete oracle environment for the C10 scenario. -/
def envC10 : SpecsEnv :=
  { rr := id, redirBranch := fun _ => .error "unused",
    getRequestParams := fun _ => .ok [], getRequestBody := fun _ => .ok Json.null,
    contentTypeEval := fun _ => .ok "", generateResponses := fun _ _ => .ok (jobj []) }

/-- A view function whose docstring has a `Request` body entry. -/
def funcC10 : PyDocFunc :=
  { module := "m", name := "f", qualname := "f",
    doc := some ["Request:", "    body:", "        x: str"], loginRequired := false }

/-- A GET-only route served by `funcC10`. -/
def ruleC10 : SimpleRule :=
  { rule := "/stuff/get_stuff", methods := ["GET"], func := funcC10 }

/-- C10: when the request section carries a `body` entry and the method
is GET — and the pipeline stages that run before the guard
(redirect/requests/tags parsing, the description and operation-id
steps, the parameter extensions) all succeed — `get_specs_for_path`
returns the empty spec with the error `Request body cannot be in GET`
instead of raising, and `make_paths` installs the fixed default
`200`/`application/json` nullable-object response for that path and
method and records the error. -/
theorem C10_body_get_default_response
    (env : SpecsEnv) (excl : String → Bool) (r : SimpleRule)
    (genOpid : Bool) (tpl : String)
    (v red : String) (request : List (String × ReqVal)) (tags0 : List String)
    (desc : String) (etags : List String) (rsch : Option Json) (rqual : Option String)
    (rv1 : Json) (ps1 ps2 : List Json) (bv : ReqVal)
    (h1 : check_function_redirect env.rr r.func.doc r.rule = .ok (v, red))
    (h2 : get_requests env.rr r.func.doc = .ok request)
    (h3 : get_tags env.rr r.func.doc = .ok tags0)
    (h4 : specsDescStep env red r.func.doc = .ok (desc, etags, rsch, rqual))
    (h5 : specsOpIdStep r.rule r.func rqual (get_params_in_path r.rule) "get"
            genOpid tpl desc = .ok rv1)
    (h6 : specsParamsStep env request (get_params_in_path r.rule) = .ok ps1)
    (h7 : specsQueryStep red "get" rsch ps1 = .ok ps2)
    (hbody : assocGet request "body" = some bv)
    (hexcl : excl r.rule = false)
    (hmeth : r.methods = ["GET"]) :
    get_specs_for_path env r.rule r.rule r.func "get" genOpid tpl =
      .ok (Json.obj .nil, some (r.rule, "Request body cannot be in GET")) ∧
    makePaths env excl genOpid tpl [r] =
      .ok ([(mpNewname r.rule, [("get", defaultResponse)])],
           [(r.rule, "Request body cannot be in GET")], []) := by
  have hlow : pyLower "GET" = "get" := rfl
  have hspec : get_specs_for_path env r.rule r.rule r.func "get" genOpid tpl =
      .ok (Json.obj .nil, some (r.rule, "Request body cannot be in GET")) := by
    unfold get_specs_for_path
    rw [h1]
    dsimp only []
    rw [h2]
    dsimp only []
    rw [h3]
    dsimp only []
    rw [h4]
    dsimp only []
    rw [h5]
    dsimp only []
    rw [h6]
    dsimp only []
    rw [h7]
    dsimp only []
    rw [hbody]
    dsimp only []
    rw [if_pos (show pyLower "get" = "get" from rfl)]
  refine ⟨hspec, ?_⟩
  unfold makePaths mpGo
  rw [hexcl]
  simp only [Bool.false_eq_true, if_false]
  rw [hmeth]
  unfold mpMethods
  rw [hmeth]
  simp only [List.contains_cons]
  rw [if_pos (show (decide True || decide ("GET" = "POST")) = true from rfl)]
  rw [if_neg (show ¬ ((("GET" == "GET" || [].contains "GET") &&
      ("POST" == "GET" || [].contains "POST")) = true) from by decide)]
  rw [hlow, hspec]
  dsimp only []
  unfold mpMethods
  simp [assocPut, assocGet]
  rfl

/-- Witness for `C10_body_get_default_response` at the GET route
`/stuff/get_stuff` whose docstring is
`"Request:\n    body:\n        x: str"`. -/
theorem C10_body_get_default_response_witness :
    get_specs_for_path envC10 ruleC10.rule ruleC10.rule ruleC10.func "get" false "t" =
      .ok (Json.obj .nil, some ("/stuff/get_stuff", "Request body cannot be in GET")) ∧
    makePaths envC10 (fun _ => false) false "t" [ruleC10] =
      .ok ([("/stuff/get_stuff", [("get", defaultResponse)])],
           [("/stuff/get_stuff", "Request body cannot be in GET")], []) := by
  have h := C10_body_get_default_response envC10 (fun _ => false) ruleC10 false "t"
    "" "" [("body", ReqVal.l ["x: str"])] [] "" [] none none
    (jobj [(JKey.s "description", Json.str "")]) [] [] (ReqVal.l ["x: str"])
    rfl rfl rfl rfl rfl rfl rfl rfl rfl rfl
  exact h

end FlaskDocspec
